import Mathlib

/-!
# godx: storage host updates, DxFile segment shift, upload worker

A shallow embedding of `storage/storagehost/newstoragemanager/shrinkfolder.go`
and `deletebatch.go`, of `segmentShift` and the functions it calls in
`storage/storageclient/filesystem/dxfile/write.go`, of the upload queue of
`storage/storageclient/workerupload.go`, and of the interaction names that
`storagehostmanager/interaction_test.go` tests.

Conventions of the embedding

* Go pointers to storage folders are addresses (`Ptr`) into `storageManager.mem`;
  writing through a pointer is a function update of `mem`.
* A Go `error` result is `Option Err` (`none` is `nil`).  Dereferencing a nil
  pointer panics in Go; the model reports it as `Err.nilDereference`, a value
  no Go `return` produces.
* `uint64` values are `Nat`; where the source multiplies or converts, the
  wrap-around is written out (`% 2 ^ 64`, `toInt64`).
* Calls that leave the process (log commit, data-file reads and writes, the
  key-value batch write, truncate) go through `External`, and every such call
  is recorded, with its outcome, in an effect trace.
* Functions of the package that are not part of the translated files are
  fields of `Deps` (storage host), `DxDeps` (DxFile), `WorkerDeps` and
  `UploadDeps` (upload worker); the worker functions are modelled one call at a time, without
  interleaving.
* A lock is a pair of counters with the history of the calls made on it.
  `Lock()` on a lock that somebody holds does not return while it is held;
  `rwLock.lockOrWait` says whether the call returns in a run of one goroutine.
* Inside a loop body of the source the result parameter `err` is shadowed by a
  `:=` declaration, and the statements of the body assign the shadowing
  variable.  A bare `return` returns the result parameter; no statement assigns
  it before the loop ends, so a bare `return` inside the loop returns nil,
  whatever error is in scope.  (The `gc` compiler refuses a bare `return` under
  such a shadow; the embedding follows the meaning the language gives it.)  A
  `return err` there returns the error in scope.
-/

namespace Godx

/-! ## Data model -/

abbrev folderID := Nat
abbrev sectorID := Nat
abbrev Ptr := Nat
abbrev Bytes := List Nat

/-- Go error values: the package's sentinel errors, messages built with
`errors.New` / `fmt.Errorf`, and the run-time panics (nil dereference, index out
of range, integer division by zero). -/
inductive Err where
  | errStopped
  | errFolderAlreadyFull
  | errRevert
  | msg (text : String)
  | wrapped (text : String) (inner : Err)
  | nilDereference
  | indexOutOfRange
  | divideByZero
  deriving DecidableEq, Repr

/-- The values that stand for a run-time panic rather than a returned error. -/
def Err.isPanic : Err → Bool
  | Err.nilDereference => true
  | Err.indexOutOfRange => true
  | Err.divideByZero => true
  | _ => false

/-- Conversion `int64(x)` of a `uint64` value. -/
def toInt64 (x : Nat) : Int :=
  if x % 2 ^ 64 < 2 ^ 63 then ((x % 2 ^ 64 : Nat) : Int) else ((x % 2 ^ 64 : Nat) : Int) - 2 ^ 64

/-- The `sector` row: id, location and reference count. -/
structure sector where
  id : sectorID
  folderID : folderID
  index : Nat
  count : Nat
  deriving DecidableEq, Repr

inductive FolderStatus where
  | folderAvailable
  | folderUnavailable
  deriving DecidableEq, Repr

/-- Modelled from the spec: the `storageFolder` struct is declared outside the
translated files.  The spec gives it a path, a backing fixed-slot data file,
`numSectors`, a free/used slot bitmap and a status; `dataFile` is the handle of
the backing file. -/
structure storageFolder where
  id : folderID
  path : String
  status : FolderStatus
  numSectors : Nat
  usage : List Bool
  dataFile : Nat
  deriving DecidableEq, Repr

structure sectorLocation where
  FolderID : folderID
  Index : Nat
  Count : Nat
  deriving DecidableEq, Repr

structure sectorRelocation where
  ID : sectorID
  PrevLocation : sectorLocation
  NewLocation : sectorLocation
  deriving DecidableEq, Repr

structure shrinkFolderInitPersist where
  FolderPath : String
  PrevNumSectors : Nat
  TargetNumSectors : Nat
  deriving DecidableEq, Repr

/-- A write-ahead-log operation: `writeaheadlog.Operation`. -/
structure Operation where
  Name : String
  Data : Bytes
  deriving DecidableEq, Repr

/-- A write-ahead-log transaction as the updates see it: the operations handed
to it and the result of its initialisation (`InitErr`, read after
`InitComplete`). -/
structure Transaction where
  Operations : List Operation
  InitErr : Option Err
  deriving DecidableEq, Repr

/-- Rows staged in a `leveldb.Batch`. -/
inductive BatchEntry where
  | deleteFolderSector (folder : folderID) (id : sectorID)
  | putSector (s : sector) (withFolderKey : Bool)
  | putFolder (f : storageFolder)
  deriving DecidableEq, Repr

abbrev Batch := List BatchEntry

def opNameShrinkFolder : String := "shrink folder"
def opNameRelocateSector : String := "relocate sector"
def opNameDeleteSectorBatch : String := "delete sector batch"

/-- Go map `map[folderID]*storageFolder`, as an association list. -/
abbrev FolderMap := List (folderID × Ptr)

def mapLookup (m : FolderMap) (k : folderID) : Option Ptr :=
  match m with
  | [] => none
  | (k1, v) :: rest => if k1 = k then some v else mapLookup rest k

def mapInsert (m : FolderMap) (k : folderID) (v : Ptr) : FolderMap :=
  match m with
  | [] => [(k, v)]
  | (k1, v1) :: rest => if k1 = k then (k, v) :: rest else (k1, v1) :: mapInsert rest k v

structure shrinkFolderUpdate where
  folderPath : String
  prevNumSectors : Nat
  targetNumSectors : Nat
  targetFolder : Option Ptr
  relocates : List sectorRelocation
  folders : FolderMap
  txn : Option Transaction
  batch : Batch
  deriving DecidableEq, Repr

/-- Modelled from the spec: the thread manager `tm` is declared outside the
translated files.  The spec describes it as an in-flight counter with a closing
flag; `Add` fails once the flag is set. -/
structure threadManager where
  stopped : Bool
  inflight : Nat
  deriving DecidableEq, Repr

/-- Events on the manager lock, in the order they happen. -/
inductive LockEvent where
  | lock
  | unlock
  | rlock
  | runlock
  deriving DecidableEq, Repr

/-- The manager's `sync.RWMutex` as counters: exclusive acquisitions not yet
released, shared acquisitions not yet released, and the history of calls. -/
structure rwLock where
  held : Int
  readers : Int
  history : List LockEvent
  deriving DecidableEq, Repr

def rwLock.Lock (l : rwLock) : rwLock :=
  { l with held := l.held + 1, history := l.history ++ [LockEvent.lock] }

def rwLock.Unlock (l : rwLock) : rwLock :=
  { l with held := l.held - 1, history := l.history ++ [LockEvent.unlock] }

def rwLock.RLock (l : rwLock) : rwLock :=
  { l with readers := l.readers + 1, history := l.history ++ [LockEvent.rlock] }

def rwLock.RUnlock (l : rwLock) : rwLock :=
  { l with readers := l.readers - 1, history := l.history ++ [LockEvent.runlock] }

/-- The part of `storageManager` the updates touch: the thread manager, the
manager lock, the sector ids locked through `sectorLocks`, and the
storage-folder objects by address. -/
structure storageManager where
  tm : threadManager
  lock : rwLock
  sectorLocks : List sectorID
  mem : Ptr → storageFolder

/-- Store `f` at address `p`. -/
def storageManager.store (m : storageManager) (p : Ptr) (f : storageFolder) : storageManager :=
  { m with mem := fun q => if q = p then f else m.mem q }

/-! ## Effects outside the process -/

/-- One call that leaves the process, with what it returned. -/
inductive Effect where
  | commit (err : Option Err)
  | readAt (file : Nat) (off : Int) (n : Nat) (err : Option Err)
  | writeAt (file : Nat) (off : Int) (data : Bytes) (n : Nat) (err : Option Err)
  | writeBatch (err : Option Err)
  | truncate (file : Nat) (size : Int) (err : Option Err)
  | release (err : Option Err)
  deriving DecidableEq, Repr

structure ReadResult (σ : Type) where
  buf : Bytes
  n : Nat
  err : Option Err
  world : σ

structure WriteResult (σ : Type) where
  n : Nat
  err : Option Err
  world : σ

structure CallResult (σ : Type) where
  err : Option Err
  world : σ

/-- The log, the data files and the key-value store, as operations on a world
state `σ`.  `readAt file b off` is `file.ReadAt(b, off)` and returns the buffer
after the call; `writeAt file b off` is `file.WriteAt(b, off)`. -/
structure External (σ : Type) where
  commit : Transaction → σ → CallResult σ
  readAt : Nat → Bytes → Int → σ → ReadResult σ
  writeAt : Nat → Bytes → Int → σ → WriteResult σ
  writeBatch : Batch → σ → CallResult σ
  truncate : Nat → Int → σ → CallResult σ
  release : Transaction → σ → CallResult σ

/-- Modelled from the spec: `numSectorsToSize` is declared outside the
translated files; the file length for `n` slots is `n × SectorSize` (as
`uint64`). -/
def numSectorsToSize (SectorSize numSectors : Nat) : Nat :=
  (numSectors * SectorSize) % 2 ^ 64

/-- What a run of `processNormal` yields: the returned error, the world after
it, and the calls it made. -/
structure ProcessResult (σ : Type) where
  err : Option Err
  world : σ
  trace : List Effect

/-- The loop `for _, relocate := range update.relocates` of `processNormal`,
with the buffer `b` carried from one iteration to the next. -/
def relocateAll {σ : Type} (ext : External σ) (SectorSize : Nat) (manager : storageManager)
    (update : shrinkFolderUpdate) : List sectorRelocation → Bytes → σ → ProcessResult σ
  | [], _, w => { err := none, world := w, trace := [] }
  | relocate :: rest, b, w =>
    match update.targetFolder with
    | none => { err := some Err.nilDereference, world := w, trace := [] }
    | some tf =>
      let prevIndex := relocate.PrevLocation.Index
      let file := (manager.mem tf).dataFile
      let off := toInt64 ((prevIndex * SectorSize) % 2 ^ 64)
      let r := ext.readAt file b off w
      if r.err ≠ none ∨ r.n ≠ SectorSize then
        { err := some (Err.msg "not read full sector"), world := r.world,
          trace := [Effect.readAt file off r.n r.err] }
      else
        match mapLookup update.folders relocate.NewLocation.FolderID with
        | none =>
          { err := some (Err.msg "folder not in folders"), world := r.world,
            trace := [Effect.readAt file off r.n r.err] }
        | some targetFolder =>
          let newIndex := relocate.NewLocation.Index
          let dst := (manager.mem targetFolder).dataFile
          let wr := ext.writeAt dst r.buf (toInt64 newIndex) r.world
          let k := relocateAll ext SectorSize manager update rest r.buf wr.world
          { k with trace := Effect.readAt file off r.n r.err
                      :: Effect.writeAt dst (toInt64 newIndex) r.buf wr.n wr.err :: k.trace }

/-- The method `shrinkFolderUpdate.processNormal`. -/
def shrinkFolderUpdate.processNormal {σ : Type} (ext : External σ) (SectorSize : Nat) (manager : storageManager)
    (update : shrinkFolderUpdate) (w : σ) : ProcessResult σ :=
  match update.txn with
  | none => { err := some Err.nilDereference, world := w, trace := [] }
  | some txn =>
    let c := ext.commit txn w
    match c.err with
    | some e => { err := some e, world := c.world, trace := [Effect.commit (some e)] }
    | none =>
      let b := List.replicate SectorSize 0
      let k := relocateAll ext SectorSize manager update update.relocates b c.world
      match k.err with
      | some e => { err := some e, world := k.world, trace := Effect.commit none :: k.trace }
      | none =>
        let wb := ext.writeBatch update.batch k.world
        match wb.err with
        | some e =>
          { err := some e, world := wb.world,
            trace := Effect.commit none :: (k.trace ++ [Effect.writeBatch (some e)]) }
        | none =>
          match update.targetFolder with
          | none =>
            { err := some Err.nilDereference, world := wb.world,
              trace := Effect.commit none :: (k.trace ++ [Effect.writeBatch none]) }
          | some tf =>
            let file := (manager.mem tf).dataFile
            let size := toInt64 (numSectorsToSize SectorSize update.targetNumSectors)
            let t := ext.truncate file size wb.world
            { err := t.err, world := t.world,
              trace := Effect.commit none
                :: (k.trace ++ [Effect.writeBatch none, Effect.truncate file size t.err]) }

/-- The method `shrinkFolderUpdate.processCommitted`. -/
def shrinkFolderUpdate.processCommitted {σ : Type} (w : σ) : ProcessResult σ :=
  { err := some Err.errRevert, world := w, trace := [] }

def targetNormal : Nat := 0
def targetRecoverCommitted : Nat := 1

/-- The method `shrinkFolderUpdate.process`. -/
def shrinkFolderUpdate.process {σ : Type} (ext : External σ) (SectorSize : Nat) (manager : storageManager)
    (update : shrinkFolderUpdate) (target : Nat) (w : σ) : ProcessResult σ :=
  if target = targetNormal then shrinkFolderUpdate.processNormal ext SectorSize manager update w
  else if target = targetRecoverCommitted then shrinkFolderUpdate.processCommitted w
  else { err := some (Err.msg "invalid target"), world := w, trace := [] }

/-- Shape of the calls that follow a successful commit: pairs of a read that
came back full and a write, possibly a last read alone, then possibly the batch
write, then, only after a batch write without error, the truncate, which is
last. -/
def afterCommit : List Effect → Bool
  | [] => true
  | [Effect.readAt _ _ _ _] => true
  | Effect.readAt _ _ _ none :: Effect.writeAt _ _ _ _ _ :: rest => afterCommit rest
  | [Effect.writeBatch _] => true
  | [Effect.writeBatch none, Effect.truncate _ _ _] => true
  | _ => false

/-- Data-file reads and writes. -/
def Effect.isTransfer : Effect → Bool
  | Effect.readAt _ _ _ _ => true
  | Effect.writeAt _ _ _ _ _ => true
  | _ => false

/-- Shape of a whole trace: nothing, or a failed commit alone, or a successful
commit followed by `afterCommit` calls. -/
def protocolOrder : List Effect → Bool
  | [] => true
  | [Effect.commit (some _)] => true
  | Effect.commit none :: rest => afterCommit rest
  | _ => false

/-- A call that leaves the process, without what it returned: the operation, the
file it is made on, and the offset or the size it is given. -/
inductive Call where
  | commit
  | readAt (file : Nat) (off : Int)
  | writeAt (file : Nat) (off : Int)
  | writeBatch
  | truncate (file : Nat) (size : Int)
  | release
  deriving DecidableEq, Repr

/-- The call behind an entry of the trace. -/
def Effect.call : Effect → Call
  | Effect.commit _ => Call.commit
  | Effect.readAt file off _ _ => Call.readAt file off
  | Effect.writeAt file off _ _ _ => Call.writeAt file off
  | Effect.writeBatch _ => Call.writeBatch
  | Effect.truncate file size _ => Call.truncate file size
  | Effect.release _ => Call.release

/-- The calls one relocation stands for: the read of the sector at its previous
slot, byte offset `PrevLocation.Index × SectorSize` of the data file of the
target folder (address `tf`), then the write to the data file of the folder of
the new location, at `int64(NewLocation.Index)`, the offset `processNormal`
passes to `WriteAt`.  A relocation whose new folder is not in `update.folders`
has no file to write to and stands for the read alone. -/
def relocationCalls (SectorSize : Nat) (manager : storageManager) (update : shrinkFolderUpdate)
    (tf : Ptr) (r : sectorRelocation) : List Call :=
  Call.readAt (manager.mem tf).dataFile (toInt64 ((r.PrevLocation.Index * SectorSize) % 2 ^ 64))
    :: match mapLookup update.folders r.NewLocation.FolderID with
       | some dst => [Call.writeAt (manager.mem dst).dataFile (toInt64 r.NewLocation.Index)]
       | none => []

/-- The reads and writes of a list of relocations, in the order of the list. -/
def transferCalls (SectorSize : Nat) (manager : storageManager) (update : shrinkFolderUpdate)
    (tf : Ptr) : List sectorRelocation → List Call
  | [] => []
  | r :: rest =>
    relocationCalls SectorSize manager update tf r
      ++ transferCalls SectorSize manager update tf rest

/-- The sequence the shrink protocol prescribes for `process`: commit the log
transaction, then the read and the write of every relocation of
`update.relocates` in order, then the batch write, then the truncate of the
target folder's data file to the new size.  Without a target folder there is no
file to read or to truncate: the sequence then ends where the first of these
would come. -/
def plannedCalls (SectorSize : Nat) (manager : storageManager) (update : shrinkFolderUpdate) :
    List Call :=
  match update.targetFolder with
  | some tf =>
    Call.commit
      :: (transferCalls SectorSize manager update tf update.relocates
          ++ [Call.writeBatch,
              Call.truncate (manager.mem tf).dataFile
                (toInt64 (numSectorsToSize SectorSize update.targetNumSectors))])
  | none => Call.commit :: (if update.relocates = [] then [Call.writeBatch] else [])

/-! ## Collaborators declared outside the translated files -/

/-- The functions the two updates call that live elsewhere in the package (the
database wrapper, the folder manager, the slot bitmap of a storage folder) or in
other packages (`rlp`, `writeaheadlog`).  The slot helpers return the folder's
new bitmap; `txnAppend` returns what `<-txn.Append(ops)` yields and the
transaction after it. -/
structure Deps where
  getAllSectorsIDsFromFolder : folderID → List sectorID
  getSector : sectorID → Except Err sector
  getFolderPath : folderID → Except Err String
  deleteFolderSectorToBatch : Batch → folderID → sectorID → Batch
  saveSectorToBatch : Batch → sector → Bool → Batch × Option Err
  saveStorageFolderToBatch : Batch → storageFolder → Batch × Option Err
  validateShrink : (Ptr → storageFolder) → String → Nat → Option Err
  getWithoutLock : (Ptr → storageFolder) → String → Except Err Ptr
  selectFolderToAdd : (Ptr → storageFolder) → Except Err (Ptr × Nat)
  getFolders : List String → Except Err FolderMap
  freeSectorIndex : storageFolder → Except Err Nat
  setFreeSectorSlot : storageFolder → Nat → Except Err (List Bool)
  setUsedSectorSlot : storageFolder → Nat → Except Err (List Bool)
  encodeShrinkInit : shrinkFolderInitPersist → Except Err Bytes
  encodeRelocation : sectorRelocation → Except Err Bytes
  encodeDeleteInit : List sectorID → Except Err Bytes
  newTransaction : List Operation → Except Err Transaction
  txnAppend : Transaction → List Operation → Option Err × Transaction
  calculateSectorID : Nat → sectorID

/-- What a phase that works on the manager and the update yields. -/
structure PhaseResult where
  err : Option Err
  manager : storageManager
  update : shrinkFolderUpdate

/-! ## shrinkFolderUpdate: recordIntent and prepare -/

/-- The method `shrinkFolderUpdate.lockResource`. -/
def shrinkFolderUpdate.lockResource (manager : storageManager) (update : shrinkFolderUpdate) : PhaseResult :=
  { err := none, manager := { manager with lock := manager.lock.Lock }, update := update }

/-- The method `shrinkFolderUpdate.recordIntent`.  The deferred function unlocks
the manager lock when the result is an error. -/
def shrinkFolderUpdate.recordIntent (deps : Deps) (manager : storageManager) (update : shrinkFolderUpdate) :
    PhaseResult :=
  let m1 : storageManager := { manager with lock := manager.lock.Lock }
  let unlocked : storageManager := { m1 with lock := m1.lock.Unlock }
  match deps.validateShrink m1.mem update.folderPath update.targetNumSectors with
  | some e => { err := some e, manager := unlocked, update := update }
  | none =>
    match deps.getWithoutLock m1.mem update.folderPath with
    | Except.error e =>
      { err := some e, manager := unlocked, update := { update with targetFolder := none } }
    | Except.ok tf =>
      let u1 : shrinkFolderUpdate :=
        { update with targetFolder := some tf, prevNumSectors := (m1.mem tf).numSectors }
      let persist : shrinkFolderInitPersist :=
        { FolderPath := u1.folderPath, PrevNumSectors := (m1.mem tf).numSectors,
          TargetNumSectors := u1.targetNumSectors }
      match deps.encodeShrinkInit persist with
      | Except.error e => { err := some e, manager := unlocked, update := u1 }
      | Except.ok b =>
        let op : Operation := { Name := opNameShrinkFolder, Data := b }
        match deps.newTransaction [op] with
        | Except.error e =>
          { err := some e, manager := unlocked, update := { u1 with txn := none } }
        | Except.ok txn => { err := none, manager := m1, update := { u1 with txn := some txn } }

/-- What one run of the loop body of `prepareNormal` yields.  `ret` is `none`
when the body runs to its end and the loop goes on with the next id; it is
`some r` when a `return` statement leaves the function, `r` being the value
returned: the error of a `return err`, and nil for a bare `return`, which
returns the result parameter that the loop body never assigns. -/
structure BodyResult where
  ret : Option (Option Err)
  manager : storageManager
  update : shrinkFolderUpdate

/-- Where a sector that has to move goes: a free slot of the shrinking folder,
else, when that folder is full, the folder and slot `selectFolderToAdd` picks.
When there is none the value is what `prepareNormal` returns: nil at the bare
`return` that follows a failed `selectFolderToAdd`, the error built for any
other failure of `freeSectorIndex`. -/
def chooseDestination (deps : Deps) (manager : storageManager) (tf : Ptr) :
    Except (Option Err) (Ptr × Nat) :=
  match deps.freeSectorIndex (manager.mem tf) with
  | Except.ok index => Except.ok (tf, index)
  | Except.error e =>
    if e = Err.errFolderAlreadyFull then
      match deps.selectFolderToAdd manager.mem with
      | Except.ok d => Except.ok d
      | Except.error _ => Except.error none
    else Except.error (some (Err.msg "cannot get free s index"))

/-- The relocation record built for sector `s` going to slot `index` of the
folder with id `dstID`. -/
def mkRelocation (s : sector) (dstID : folderID) (index : Nat) : sectorRelocation :=
  { ID := s.id
    PrevLocation := { FolderID := s.folderID, Index := s.index, Count := s.count }
    NewLocation := { FolderID := dstID, Index := index, Count := s.count } }

/-- The part of the loop body of `prepareNormal` that follows the in-memory slot
updates: record the relocation, wait once for the transaction to be
initialised, append the log operation, stage the batch rows.  The `return`
after a failed encoding is `return err`; the others are bare. -/
def stageRelocation (deps : Deps) (tf relocatedFolder : Ptr) (s : sector) (index : Nat)
    (once : Bool) (manager : storageManager) (update : shrinkFolderUpdate) : BodyResult :=
  let relocate := mkRelocation s (manager.mem relocatedFolder).id index
  let u1 : shrinkFolderUpdate := { update with relocates := update.relocates ++ [relocate] }
  match u1.txn with
  | none => { ret := some (some Err.nilDereference), manager := manager, update := u1 }
  | some txn =>
    if once = false ∧ txn.InitErr ≠ none then
      { ret := some none, manager := manager, update := u1 }
    else
      match deps.encodeRelocation relocate with
      | Except.error e => { ret := some (some e), manager := manager, update := u1 }
      | Except.ok b =>
        let op : Operation := { Name := opNameRelocateSector, Data := b }
        let a := deps.txnAppend txn [op]
        let u2 : shrinkFolderUpdate := { u1 with txn := some a.2 }
        match a.1 with
        | some _ => { ret := some none, manager := manager, update := u2 }
        | none =>
          let newSector : sector :=
            { id := s.id, folderID := (manager.mem relocatedFolder).id, index := index,
              count := s.count }
          let b1 := deps.deleteFolderSectorToBatch u2.batch s.folderID s.id
          let r2 := deps.saveSectorToBatch b1 newSector true
          let u3 : shrinkFolderUpdate := { u2 with batch := r2.1 }
          match r2.2 with
          | some _ => { ret := some none, manager := manager, update := u3 }
          | none =>
            let r3 := deps.saveStorageFolderToBatch u3.batch (manager.mem tf)
            let u4 : shrinkFolderUpdate := { u3 with batch := r3.1 }
            match r3.2 with
            | some _ => { ret := some none, manager := manager, update := u4 }
            | none =>
              if relocatedFolder ≠ tf then
                let r4 := deps.saveStorageFolderToBatch u4.batch (manager.mem relocatedFolder)
                match r4.2 with
                | some _ =>
                  { ret := some none, manager := manager, update := { u4 with batch := r4.1 } }
                | none => { ret := none, manager := manager, update := { u4 with batch := r4.1 } }
              else { ret := none, manager := manager, update := u4 }

/-- The loop body of `prepareNormal` for a sector `s` whose index is at or
beyond the new boundary.  The two `return`s after a failed slot update are
bare. -/
def relocateOne (deps : Deps) (tf : Ptr) (s : sector) (once : Bool) (manager : storageManager)
    (update : shrinkFolderUpdate) : BodyResult :=
  match chooseDestination deps manager tf with
  | Except.error res => { ret := some res, manager := manager, update := update }
  | Except.ok (relocatedFolder, index) =>
    let u1 : shrinkFolderUpdate :=
      if (mapLookup update.folders (manager.mem relocatedFolder).id).isNone then
        { update with
          folders := mapInsert update.folders (manager.mem relocatedFolder).id relocatedFolder }
      else update
    match deps.setFreeSectorSlot (manager.mem tf) s.index with
    | Except.error _ => { ret := some none, manager := manager, update := u1 }
    | Except.ok usage1 =>
      let m1 := manager.store tf { manager.mem tf with usage := usage1 }
      match deps.setUsedSectorSlot (m1.mem relocatedFolder) index with
      | Except.error _ =>
        let m2 :=
          match deps.setFreeSectorSlot (m1.mem tf) s.index with
          | Except.ok usage2 => m1.store tf { m1.mem tf with usage := usage2 }
          | Except.error _ => m1
        { ret := some none, manager := m2, update := u1 }
      | Except.ok usage2 =>
        let m2 := m1.store relocatedFolder { m1.mem relocatedFolder with usage := usage2 }
        stageRelocation deps tf relocatedFolder s index once m2 u1

/-- The loop `for _, id := range ids` of `prepareNormal`; `once` tells whether
the `sync.Once` has fired.  A `return` in the body ends the function with the
value it returns; the `return` after the loop returns the result parameter,
nil. -/
def prepareLoop (deps : Deps) (tf : Ptr) :
    List sectorID → Bool → storageManager → shrinkFolderUpdate → PhaseResult
  | [], _, manager, update => { err := none, manager := manager, update := update }
  | id :: ids, once, manager, update =>
    match deps.getSector id with
    | Except.error e => { err := some e, manager := manager, update := update }
    | Except.ok s =>
      if s.index < update.targetNumSectors then prepareLoop deps tf ids once manager update
      else
        let r := relocateOne deps tf s once manager update
        match r.ret with
        | some res => { err := res, manager := r.manager, update := r.update }
        | none => prepareLoop deps tf ids true r.manager r.update

/-- The method `shrinkFolderUpdate.prepareNormal`. -/
def shrinkFolderUpdate.prepareNormal (deps : Deps) (manager : storageManager) (update : shrinkFolderUpdate) :
    PhaseResult :=
  match update.targetFolder with
  | none => { err := some Err.nilDereference, manager := manager, update := update }
  | some tf =>
    let m1 := manager.store tf { manager.mem tf with status := FolderStatus.folderUnavailable }
    let m2 := m1.store tf { m1.mem tf with numSectors := update.targetNumSectors }
    let u1 : shrinkFolderUpdate :=
      { update with folders := mapInsert update.folders (m2.mem tf).id tf }
    let ids := deps.getAllSectorsIDsFromFolder (m2.mem tf).id
    prepareLoop deps tf ids false m2 u1

/-- The method `shrinkFolderUpdate.prepareCommitted`. -/
def shrinkFolderUpdate.prepareCommitted (manager : storageManager) (update : shrinkFolderUpdate) : PhaseResult :=
  { err := none, manager := manager, update := update }

/-- The method `shrinkFolderUpdate.prepare`; `newBatch` gives an empty batch. -/
def shrinkFolderUpdate.prepare (deps : Deps) (manager : storageManager) (update : shrinkFolderUpdate)
    (target : Nat) : PhaseResult :=
  let u1 : shrinkFolderUpdate := { update with batch := [] }
  if target = targetNormal then shrinkFolderUpdate.prepareNormal deps manager u1
  else if target = targetRecoverCommitted then shrinkFolderUpdate.prepareCommitted manager u1
  else { err := some (Err.msg "invalid target"), manager := manager, update := u1 }

/-- The sectors of `ids`, in order, whose row loads and whose index is at or
beyond `target`. -/
def sectorsToMove (deps : Deps) (target : Nat) (ids : List sectorID) : List sector :=
  ids.filterMap fun id =>
    match deps.getSector id with
    | Except.ok s => if s.index < target then none else some s
    | Except.error _ => none

/-! ## deleteSectorBatchUpdate -/

structure deleteSectorBatchUpdate where
  ids : List sectorID
  sectors : List sector
  folders : FolderMap
  txn : Option Transaction
  batch : Batch
  deriving DecidableEq, Repr

/-- What a phase of the delete-batch update yields. -/
structure DeleteResult where
  err : Option Err
  manager : storageManager
  update : deleteSectorBatchUpdate

/-- Modelled from the spec: `tm.Add` of the thread manager, which is declared
outside the translated files: it fails when the engine is shutting down and
otherwise counts one more operation in flight. -/
def threadManager.Add (tm : threadManager) : Option Err × threadManager :=
  if tm.stopped then (some (Err.msg "thread manager stopped"), tm)
  else (none, { tm with inflight := tm.inflight + 1 })

/-- Modelled from the spec: `tm.Done`, the end of an operation in flight. -/
def threadManager.Done (tm : threadManager) : threadManager :=
  { tm with inflight := tm.inflight - 1 }

/-- The method `storageManager.DeleteSectorBatch`: both branches after the
locks are taken return the result parameter as it is, `nil`. -/
def storageManager.DeleteSectorBatch (sm : storageManager) (roots : List Nat) : Option Err × storageManager :=
  match sm.tm.Add with
  | (some _, _) => (some Err.errStopped, sm)
  | (none, tm1) =>
    let s1 : storageManager := { sm with tm := tm1 }
    let s2 : storageManager := { s1 with lock := s1.lock.RLock }
    let err : Option Err := if roots.length = 0 then none else none
    let s3 : storageManager := { s2 with lock := s2.lock.RUnlock }
    let s4 : storageManager := { s3 with tm := s3.tm.Done }
    (err, s4)

/-- The method `storageManager.DeleteSector`. -/
def storageManager.DeleteSector (sm : storageManager) (root : Nat) : Option Err × storageManager :=
  storageManager.DeleteSectorBatch sm [root]

/-- The method `storageManager.createDeleteSectorBatchUpdate`. -/
def storageManager.createDeleteSectorBatchUpdate (deps : Deps) (roots : List Nat) : deleteSectorBatchUpdate :=
  { ids := roots.map deps.calculateSectorID, sectors := [], folders := [], txn := none,
    batch := [] }

/-- The loop of `loadSectorsAndFolders`: the sectors loaded so far, the folder
paths collected so far, and, when a `return` in the body left the function, the
value it returned: nil for the bare `return` after a failed `getSector`, the
error for the `return err` after a failed `getFolderPath`. -/
def loadLoop (deps : Deps) (folders : FolderMap) :
    List sectorID → List sector → List String →
      Option (Option Err) × List sector × List String
  | [], sectors, folderPaths => (none, sectors, folderPaths)
  | id :: ids, sectors, folderPaths =>
    match deps.getSector id with
    | Except.error _ => (some none, sectors, folderPaths)
    | Except.ok s =>
      if s.count > 1 then loadLoop deps folders ids (sectors ++ [s]) folderPaths
      else
        if (mapLookup folders s.folderID).isNone then
          match deps.getFolderPath s.folderID with
          | Except.error e => (some (some e), sectors ++ [s], folderPaths)
          | Except.ok path => loadLoop deps folders ids (sectors ++ [s]) (folderPaths ++ [path])
        else loadLoop deps folders ids (sectors ++ [s]) folderPaths

/-- The method `deleteSectorBatchUpdate.loadSectorsAndFolders`. -/
def deleteSectorBatchUpdate.loadSectorsAndFolders (deps : Deps) (manager : storageManager)
    (update : deleteSectorBatchUpdate) : DeleteResult :=
  let m1 : storageManager := { manager with sectorLocks := manager.sectorLocks ++ update.ids }
  let r := loadLoop deps update.folders update.ids update.sectors []
  let u1 : deleteSectorBatchUpdate := { update with sectors := r.2.1 }
  match r.1 with
  | some res => { err := res, manager := m1, update := u1 }
  | none =>
    match deps.getFolders r.2.2 with
    | Except.error e => { err := some e, manager := m1, update := { u1 with folders := [] } }
    | Except.ok fs => { err := none, manager := m1, update := { u1 with folders := fs } }

/-- The loop body of `deleteSectorBatchUpdate.prepareNormal` on one loaded
sector: the count is set to 0 when it is at most 1, and the other branch is
empty. -/
def deleteStep (s : sector) : sector :=
  if s.count ≤ 1 then { s with count := 0 } else s

/-- The method `deleteSectorBatchUpdate.prepareNormal`. -/
def deleteSectorBatchUpdate.prepareNormal (deps : Deps) (manager : storageManager)
    (update : deleteSectorBatchUpdate) : DeleteResult :=
  let l := deleteSectorBatchUpdate.loadSectorsAndFolders deps manager update
  match l.err with
  | some e =>
    { err := some (Err.wrapped "cannot load sectors and folders" e), manager := l.manager,
      update := l.update }
  | none =>
    { err := none, manager := l.manager,
      update := { l.update with sectors := l.update.sectors.map deleteStep } }

/-! ## An in-memory disk -/

/-- Data files by handle, with switches that make a kind of call fail. -/
structure Disk where
  files : List Bytes
  writeFault : Option Err
  commitFault : Option Err
  batchFault : Option Err
  deriving DecidableEq, Repr

def Disk.file (d : Disk) (h : Nat) : Bytes := d.files.getD h []

def Disk.setFile (d : Disk) (h : Nat) (content : Bytes) : Disk :=
  { d with files := d.files.set h content }

/-- Overwrite `content` from position `off` with `data`, growing it with zero
bytes when it is shorter. -/
def overwrite (content : Bytes) (off : Nat) (data : Bytes) : Bytes :=
  (content ++ List.replicate (off - content.length) 0).take off ++ data
    ++ content.drop (off + data.length)

def diskReadAt (h : Nat) (b : Bytes) (off : Int) (d : Disk) : ReadResult Disk :=
  if off < 0 then { buf := b, n := 0, err := some (Err.msg "negative offset"), world := d }
  else
    let data := ((d.file h).drop off.toNat).take b.length
    { buf := data ++ b.drop data.length, n := data.length,
      err := if data.length < b.length then some (Err.msg "EOF") else none, world := d }

def diskWriteAt (h : Nat) (b : Bytes) (off : Int) (d : Disk) : WriteResult Disk :=
  match d.writeFault with
  | some e => { n := 0, err := some e, world := d }
  | none =>
    if off < 0 then { n := 0, err := some (Err.msg "negative offset"), world := d }
    else { n := b.length, err := none, world := d.setFile h (overwrite (d.file h) off.toNat b) }

def diskTruncate (h : Nat) (size : Int) (d : Disk) : CallResult Disk :=
  if size < 0 then { err := some (Err.msg "negative size"), world := d }
  else
    { err := none,
      world := d.setFile h (((d.file h) ++ List.replicate (size.toNat - (d.file h).length) 0).take
        size.toNat) }

def diskExternal : External Disk where
  commit := fun _ d => { err := d.commitFault, world := d }
  readAt := diskReadAt
  writeAt := diskWriteAt
  writeBatch := fun _ d => { err := d.batchFault, world := d }
  truncate := diskTruncate
  release := fun _ d => { err := none, world := d }

/-- Modelled from the spec: the first free slot of a folder below its capacity
(`freeSectorIndex` is declared outside the translated files). -/
def firstFreeSlot (f : storageFolder) : Option Nat :=
  (List.range f.numSectors).find? fun i => f.usage.getD i false = false

/-- Modelled from the spec: the folder behind a path, for the two folders of the
examples. -/
def exFolderOfPath (path : String) : Option (folderID × Ptr) :=
  if path = "/data/f0" then some (0, 0) else if path = "/data/f1" then some (1, 1) else none

/-- Modelled from the spec: the collaborators over a table of sector rows and
the two folders `/data/f0` (address 0) and `/data/f1` (address 1), none of whose
calls fails for a reason other than a missing row, an unknown folder or a full
folder. -/
def exDeps (rows : List sector) : Deps where
  getAllSectorsIDsFromFolder := fun fid => (rows.filter fun s => s.folderID = fid).map fun s => s.id
  getSector := fun id =>
    match rows.find? fun s => s.id = id with
    | some s => Except.ok s
    | none => Except.error (Err.msg "sector not found")
  getFolderPath := fun fid =>
    if fid = 0 then Except.ok "/data/f0" else if fid = 1 then Except.ok "/data/f1"
    else Except.error (Err.msg "folder not found")
  deleteFolderSectorToBatch := fun b fid sid => b ++ [BatchEntry.deleteFolderSector fid sid]
  saveSectorToBatch := fun b s withKey => (b ++ [BatchEntry.putSector s withKey], none)
  saveStorageFolderToBatch := fun b f => (b ++ [BatchEntry.putFolder f], none)
  validateShrink := fun mem path target =>
    match exFolderOfPath path with
    | some (_, p) =>
      if target < (mem p).numSectors then none else some (Err.msg "invalid shrink target")
    | none => some (Err.msg "folder not found")
  getWithoutLock := fun _ path =>
    match exFolderOfPath path with
    | some (_, p) => Except.ok p
    | none => Except.error (Err.msg "folder not found")
  selectFolderToAdd := fun mem =>
    match [0, 1].filterMap fun p =>
        if (mem p).status = FolderStatus.folderAvailable then
          (firstFreeSlot (mem p)).map fun i => (p, i)
        else none with
    | [] => Except.error (Err.msg "all folders are full")
    | d :: _ => Except.ok d
  getFolders := fun paths => Except.ok (paths.filterMap exFolderOfPath)
  freeSectorIndex := fun f =>
    match firstFreeSlot f with
    | some i => Except.ok i
    | none => Except.error Err.errFolderAlreadyFull
  setFreeSectorSlot := fun f i =>
    if i < f.usage.length then Except.ok (f.usage.set i false)
    else Except.error (Err.msg "slot out of range")
  setUsedSectorSlot := fun f i =>
    if i < f.usage.length then Except.ok (f.usage.set i true)
    else Except.error (Err.msg "slot out of range")
  encodeShrinkInit := fun p => Except.ok [p.PrevNumSectors, p.TargetNumSectors]
  encodeRelocation := fun r => Except.ok [r.ID, r.PrevLocation.Index, r.NewLocation.Index]
  encodeDeleteInit := fun ids => Except.ok ids
  newTransaction := fun ops => Except.ok { Operations := ops, InitErr := none }
  txnAppend := fun txn ops => (none, { txn with Operations := txn.Operations ++ ops })
  calculateSectorID := fun root => root

/-- The sector rows of the examples: sector 7 in slot 0 of folder 0 with two
references, sector 9 in slot 3 of folder 0 with one. -/
def exRows : List sector :=
  [{ id := 7, folderID := 0, index := 0, count := 2 },
   { id := 9, folderID := 0, index := 3, count := 1 }]

/-- A running manager with nothing locked: folder 0 (`/data/f0`, data file 0)
has four slots, the first and the last used; every other address holds an empty
two-slot folder `/data/f1` whose id and data file are the address. -/
def exManager : storageManager :=
  { tm := { stopped := false, inflight := 0 }
    lock := { held := 0, readers := 0, history := [] }
    sectorLocks := []
    mem := fun p =>
      if p = 0 then
        { id := 0, path := "/data/f0", status := FolderStatus.folderAvailable, numSectors := 4,
          usage := [true, false, false, true], dataFile := 0 }
      else
        { id := p, path := "/data/f1", status := FolderStatus.folderAvailable, numSectors := 2,
          usage := [false, false], dataFile := p } }

/-- The same manager while it is shutting down. -/
def exManagerStopped : storageManager :=
  { exManager with tm := { stopped := true, inflight := 0 } }

/-- The update `createShrinkFolderUpdate` builds for shrinking `/data/f0` to two
slots. -/
def exFreshUpdate : shrinkFolderUpdate :=
  { folderPath := "/data/f0", prevNumSectors := 0, targetNumSectors := 2, targetFolder := none
    relocates := [], folders := [], txn := none, batch := [] }

/-- A disk whose file 0 holds four two-byte slots. -/
def exDisk : Disk :=
  { files := [[1, 2, 3, 4, 5, 6, 7, 8]], writeFault := none, commitFault := none,
    batchFault := none }

/-- The same disk with every `WriteAt` failing. -/
def exDiskWriteFails : Disk :=
  { exDisk with writeFault := some (Err.msg "input/output error") }

/-- The update after `recordIntent` on `exFreshUpdate`. -/
def exIntentUpdate : shrinkFolderUpdate :=
  { folderPath := "/data/f0", prevNumSectors := 4, targetNumSectors := 2, targetFolder := some 0
    relocates := [], folders := []
    txn := some { Operations := [{ Name := opNameShrinkFolder, Data := [4, 2] }], InitErr := none }
    batch := [] }

/-- The manager and the update after `prepareNormal` on `exIntentUpdate`: sector
9 goes from slot 3 to slot 1 of folder 0, sector 7 stays in slot 0. -/
def exPrepared : PhaseResult :=
  shrinkFolderUpdate.prepareNormal (exDeps exRows) exManager exIntentUpdate

/-! ## shrinkFolderUpdate: release -/

/-- Modelled from the spec: the `updateError` struct is declared outside the
translated files; it carries the errors of the phases run before `release`, of
which `release` reads and clears `prepareErr` and `processErr`. -/
structure updateError where
  prepareErr : Option Err
  processErr : Option Err
  deriving DecidableEq, Repr

/-- Modelled from the spec: `updateError.isNil`, declared outside the translated
files: the outcome carries no error. -/
def updateError.isNil (e : updateError) : Bool :=
  e.prepareErr.isNone && e.processErr.isNone

/-- Modelled from the spec: `updateError.hasErrStopped`, declared outside the
translated files: one of the errors is `errStopped`. -/
def updateError.hasErrStopped (e : updateError) : Bool :=
  decide (e.prepareErr = some Err.errStopped) || decide (e.processErr = some Err.errStopped)

/-- What `release` yields: the returned error, the manager, the outcome object
after the call, the world and the calls made. -/
structure ReleaseResult (σ : Type) where
  err : Option Err
  manager : storageManager
  upErr : Option updateError
  world : σ
  trace : List Effect

/-- The statement `err = update.txn.Release()` of `release`. -/
def releaseTxn {σ : Type} (ext : External σ) (manager : storageManager)
    (update : shrinkFolderUpdate) (upErr : Option updateError) (w : σ) : ReleaseResult σ :=
  match update.txn with
  | none =>
    { err := some Err.nilDereference, manager := manager, upErr := upErr, world := w, trace := [] }
  | some txn =>
    let r := ext.release txn w
    { err := r.err, manager := manager, upErr := upErr, world := r.world,
      trace := [Effect.release r.err] }

/-- The body of `release`, before the deferred function runs. -/
def releaseBody {σ : Type} (ext : External σ) (manager : storageManager)
    (update : shrinkFolderUpdate) (upErr : Option updateError) (w : σ) : ReleaseResult σ :=
  match upErr with
  | none => releaseTxn ext manager update none w
  | some u =>
    if u.isNil then releaseTxn ext manager update (some u) w
    else if u.hasErrStopped then
      { err := none, manager := manager
        upErr := some { u with processErr := none, prepareErr := none }, world := w, trace := [] }
    else { err := none, manager := manager, upErr := some u, world := w, trace := [] }

/-- The method `shrinkFolderUpdate.release`: the body, then the deferred function
that marks the target folder available and unlocks the manager lock. -/
def shrinkFolderUpdate.release {σ : Type} (ext : External σ) (manager : storageManager)
    (update : shrinkFolderUpdate) (upErr : Option updateError) (w : σ) : ReleaseResult σ :=
  let body := releaseBody ext manager update upErr w
  match update.targetFolder with
  | none => { body with err := some Err.nilDereference }
  | some tf =>
    let m1 := body.manager.store tf
      { body.manager.mem tf with status := FolderStatus.folderAvailable }
    { body with manager := { m1 with lock := m1.lock.Unlock } }

/-- The outcome of a shrink whose `process` failed on a short read after the
commit. -/
def exProcessFailed : updateError :=
  { prepareErr := none, processErr := some (Err.msg "not read full sector") }

/-- The update after `recordIntent` when the initialisation of the log
transaction ends with an error. -/
def exIntentUpdateInitErr : shrinkFolderUpdate :=
  { exIntentUpdate with
    txn := some { Operations := [{ Name := opNameShrinkFolder, Data := [4, 2] }]
                  InitErr := some (Err.msg "log initialisation failed") } }

/-- The collaborators of the examples, with the encoding of a relocation
failing. -/
def exDepsEncodeFails : Deps :=
  { exDeps exRows with
    encodeRelocation := fun _ => Except.error (Err.msg "rlp: cannot encode") }

/-- The result of `prepare` with target normal on `exIntentUpdate` when the
encoding of the relocation fails: the `return err` that follows it. -/
def exFailedPrepare : PhaseResult :=
  shrinkFolderUpdate.prepare exDepsEncodeFails exManager exIntentUpdate targetNormal

/-- The update `createShrinkFolderUpdate` builds for a path no folder has. -/
def exUnknownFolderUpdate : shrinkFolderUpdate :=
  { exFreshUpdate with folderPath := "/data/none" }

/-! ## DxFile: shifting segments to make room for the host table -/

/-- A `uint64` result: the value modulo `2 ^ 64`. -/
def wrap64 (x : Nat) : Nat := x % 2 ^ 64

/-- The fields of the DxFile metadata that `write.go` reads and writes. -/
structure dxMetadata where
  HostTableOffset : Nat
  SegmentOffset : Nat
  NumSectors : Nat
  deriving DecidableEq, Repr

/-- Modelled from the spec: the `segment` struct is declared outside the
translated files; `write.go` reads and writes its `index` and `offset`. -/
structure segment where
  index : Nat
  offset : Nat
  deriving DecidableEq, Repr

structure DxFile where
  metadata : dxMetadata
  segments : List segment
  filePath : String
  deriving DecidableEq, Repr

/-- Modelled from the spec: the update `createInsertUpdate` builds, declared
outside the translated files: write `data` at `offset` of file `filename`. -/
structure insertUpdate where
  filename : String
  offset : Nat
  data : Bytes
  deriving DecidableEq, Repr

/-- The constants and functions `write.go` uses that are declared elsewhere:
`PageSize`, `segmentPersistNumPages`, the result of `os.OpenFile`, `readSegment`
on the open file, and the `rlp` encoding of a segment. -/
structure DxDeps where
  PageSize : Nat
  segmentPersistNumPages : Nat → Nat
  openFile : String → Option Err
  readSegment : Nat → Except Err segment
  encodeSegment : segment → Except Err Bytes

/-- Modelled from the spec: `createInsertUpdate`, declared outside the translated
files, builds the update that writes `data` at `offset` of the DxFile. -/
def DxFile.createInsertUpdate (df : DxFile) (offset : Nat) (data : Bytes) :
    Except Err insertUpdate :=
  Except.ok { filename := df.filePath, offset := offset, data := data }

/-- The size `PageSize * segmentPersistNumPages(df.metadata.NumSectors)` of one
persisted segment. -/
def DxFile.segmentSize (deps : DxDeps) (df : DxFile) : Nat :=
  wrap64 (deps.PageSize * deps.segmentPersistNumPages df.metadata.NumSectors)

/-- The room `df.metadata.SegmentOffset - df.metadata.HostTableOffset` for the
host table, a `uint64` subtraction. -/
def DxFile.hostTableRoom (df : DxFile) : Nat :=
  wrap64 (df.metadata.SegmentOffset + 2 ^ 64 - df.metadata.HostTableOffset % 2 ^ 64)

/-- The method `DxFile.shiftOffset`: the size of the shift, the number of
segments to shift, and the difference between new and old segment offset.  The
division panics when a persisted segment has size 0. -/
def DxFile.shiftOffset (deps : DxDeps) (df : DxFile) (targetHostTableSize : Nat) :
    Except Err (Nat × Nat × Nat) :=
  if targetHostTableSize < df.hostTableRoom then Except.ok (0, 0, 0)
  else
    let sizePerSeg := df.segmentSize deps
    let prevHostTableSize := df.hostTableRoom
    if sizePerSeg = 0 then Except.error Err.divideByZero
    else
      let numShiftSeg :=
        if (targetHostTableSize - prevHostTableSize) % sizePerSeg ≠ 0 then
          wrap64 ((targetHostTableSize - prevHostTableSize) / sizePerSeg + 1)
        else (targetHostTableSize - prevHostTableSize) / sizePerSeg
      let numSeg := df.segments.length
      if numShiftSeg > numSeg then
        Except.ok (wrap64 (numShiftSeg * sizePerSeg), numSeg, wrap64 (numShiftSeg * sizePerSeg))
      else Except.ok (wrap64 (numSeg * sizePerSeg), numShiftSeg, sizePerSeg)

/-- The method `DxFile.createSegmentUpdate`, with the DxFile after it: the
segment in the list gets the index and the offset before it is encoded. -/
def DxFile.createSegmentUpdate (deps : DxDeps) (df : DxFile) (segmentIndex offset : Nat) :
    Except Err insertUpdate × DxFile :=
  if segmentIndex > df.segments.length then
    (Except.error (Err.msg "unexpected index"), df)
  else
    match df.segments.get? segmentIndex with
    | none => (Except.error Err.indexOutOfRange, df)
    | some seg =>
      if seg.index ≠ segmentIndex then
        (Except.error (Err.msg "data corrupted: segment index not align"), df)
      else
        let seg1 : segment := { seg with index := segmentIndex, offset := offset }
        let df1 : DxFile := { df with segments := df.segments.set segmentIndex seg1 }
        match deps.encodeSegment seg1 with
        | Except.error _ => (Except.error (Err.msg "cannot enocde segment"), df1)
        | Except.ok segBytes =>
          if segBytes.length > df1.segmentSize deps then
            (Except.error (Err.msg "segment bytes exceed limit"), df1)
          else if toInt64 offset < 0 then (Except.error (Err.msg "uint64 overflow"), df1)
          else (df1.createInsertUpdate offset segBytes, df1)

/-- The loop of `segmentShift`: `n` segments still to shift, the next one read
at `prevOffset`.  An error of `createSegmentUpdate` is wrapped; a panic in it is
not a returned error and goes on as it is. -/
def shiftLoop (deps : DxDeps) (shiftOffset segmentSize : Nat) :
    Nat → Nat → DxFile → List insertUpdate → Except Err (List insertUpdate) × DxFile
  | 0, _, df, updates => (Except.ok updates, df)
  | n + 1, prevOffset, df, updates =>
    match deps.readSegment prevOffset with
    | Except.error e => (Except.error e, df)
    | Except.ok seg =>
      let newOffset := wrap64 (prevOffset + shiftOffset)
      match df.createSegmentUpdate deps seg.index newOffset with
      | (Except.error e, df1) =>
        (Except.error
          (if e.isPanic then e else Err.wrapped "failed to create segment update" e), df1)
      | (Except.ok iu, df1) =>
        shiftLoop deps shiftOffset segmentSize n (wrap64 (prevOffset + segmentSize)) df1
          (updates ++ [iu])

/-- The method `DxFile.segmentShift`, with the DxFile after it. -/
def DxFile.segmentShift (deps : DxDeps) (df : DxFile) (targetHostTableSize : Nat) :
    Except Err (List insertUpdate) × DxFile :=
  match deps.openFile df.filePath with
  | some e => (Except.error (Err.wrapped "failed to open the file" e), df)
  | none =>
    match df.shiftOffset deps targetHostTableSize with
    | Except.error e => (Except.error e, df)
    | Except.ok (shiftOffset, numSegToShift, segmentOffsetDiff) =>
      let prevOffset := df.metadata.SegmentOffset
      let segmentSize := df.segmentSize deps
      match shiftLoop deps shiftOffset segmentSize numSegToShift prevOffset df [] with
      | (Except.error e, df1) => (Except.error e, df1)
      | (Except.ok updates, df1) =>
        (Except.ok updates,
          { df1 with
            metadata :=
              { df1.metadata with
                SegmentOffset := wrap64 (df1.metadata.SegmentOffset + segmentOffsetDiff) } })

/-- A DxFile with two segments of `2 ^ 63` bytes each behind one page of host
table. -/
def exHugeSegments : DxFile :=
  { metadata := { HostTableOffset := 0, SegmentOffset := 4096, NumSectors := 1 }
    segments := [{ index := 0, offset := 4096 }, { index := 1, offset := 4096 + 2 ^ 63 }]
    filePath := "/files/a.dxfile" }

/-- Pages of 4096 bytes and `2 ^ 51` pages in a segment; the file opens, holds
segment 0 at every offset read, and every segment encodes to one byte. -/
def exHugeDeps : DxDeps :=
  { PageSize := 4096, segmentPersistNumPages := fun _ => 2 ^ 51, openFile := fun _ => none
    readSegment := fun off => Except.ok { index := 0, offset := off }
    encodeSegment := fun _ => Except.ok [0] }

/-- A DxFile with three one-page segments behind one page of host table. -/
def exDxFile : DxFile :=
  { metadata := { HostTableOffset := 4096, SegmentOffset := 8192, NumSectors := 1 }
    segments := [{ index := 0, offset := 8192 }, { index := 1, offset := 12288 },
                 { index := 2, offset := 16384 }]
    filePath := "/files/b.dxfile" }

/-- Pages of 4096 bytes, one page in a segment; the file opens and holds the
segment `(off - 8192) / 4096` at offset `off`. -/
def exDxDeps : DxDeps :=
  { PageSize := 4096, segmentPersistNumPages := fun _ => 1, openFile := fun _ => none
    readSegment := fun off => Except.ok { index := (off - 8192) / 4096, offset := off }
    encodeSegment := fun seg => Except.ok [seg.index] }

/-! ## Interaction types of the storage host manager -/

/-- Modelled from the spec: the type `InteractionType` and its constants are
declared outside the translated files; `TestInteractionName` and
`TestInteractionWeight` list `InteractionInvalid` and the five valid types, taken
here in that order from 0. -/
abbrev InteractionType := Nat

def InteractionInvalid : InteractionType := 0
def InteractionGetConfig : InteractionType := 1
def InteractionCreateContract : InteractionType := 2
def InteractionRenewContract : InteractionType := 3
def InteractionUpload : InteractionType := 4
def InteractionDownload : InteractionType := 5

/-- Modelled from the spec: `InteractionTypeToName` is declared outside the
translated files; the tests expect these five names and the empty name for
every other type. -/
def InteractionTypeToName (it : InteractionType) : String :=
  if it = InteractionGetConfig then "host config scan"
  else if it = InteractionCreateContract then "create contract"
  else if it = InteractionRenewContract then "renew contract"
  else if it = InteractionUpload then "upload"
  else if it = InteractionDownload then "download"
  else ""

/-- Modelled from the spec: `InteractionNameToType` is declared outside the
translated files; the tests expect the type of each of the five names and
`InteractionInvalid` for every other name. -/
def InteractionNameToType (name : String) : InteractionType :=
  if name = "host config scan" then InteractionGetConfig
  else if name = "create contract" then InteractionCreateContract
  else if name = "renew contract" then InteractionRenewContract
  else if name = "upload" then InteractionUpload
  else if name = "download" then InteractionDownload
  else InteractionInvalid

/-- The five valid interaction types. -/
def validInteractionTypes : List InteractionType :=
  [InteractionGetConfig, InteractionCreateContract, InteractionRenewContract,
   InteractionUpload, InteractionDownload]

/-- The names of the five valid interaction types. -/
def validInteractionNames : List String :=
  ["host config scan", "create contract", "renew contract", "upload", "download"]

/-! ## Upload worker of the storage client -/

/-- Modelled from the spec: the `unfinishedUploadSegment` struct is declared
outside the translated files; these are the fields `workerupload.go` reads and
writes (`unusedHosts` holds the keys of the map, `workerBackups` the addresses
of the workers). -/
structure unfinishedUploadSegment where
  unusedHosts : List String
  sectorsAllNeedNum : Int
  sectorsCompletedNum : Int
  sectorsUploadingNum : Int
  sectorSlotsStatus : List Bool
  workersRemain : Int
  workerBackups : List Nat
  deriving DecidableEq, Repr

/-- Modelled from the spec: the `worker` struct is declared outside the
translated files; these are the fields the upload queue uses.  `hostID` is
`w.contract.HostID.String()`, `uploadChan` tells whether a signal is waiting in
the channel. -/
structure worker where
  addr : Nat
  hostID : String
  contractID : Nat
  pendingSegments : List Nat
  uploadTerminated : Bool
  uploadChan : Bool
  deriving DecidableEq, Repr

/-- The part of the storage client the upload queue touches: the segment objects
by address and the session of each contract (a session may be nil). -/
structure clientState where
  segments : Nat → unfinishedUploadSegment
  sessionSet : List (Nat × Option Nat)

/-- The client function `cleanupUploadSegment`, declared outside the translated
files, as a function on the segment objects. -/
structure WorkerDeps where
  cleanupUploadSegment : (Nat → unfinishedUploadSegment) → Nat → (Nat → unfinishedUploadSegment)

/-- Write segment `seg` at address `uc`. -/
def setSegment (segs : Nat → unfinishedUploadSegment) (uc : Nat)
    (seg : unfinishedUploadSegment) : Nat → unfinishedUploadSegment :=
  fun q => if q = uc then seg else segs q

/-- The method `worker.dropSegment`. -/
def worker.dropSegment (deps : WorkerDeps) (c : clientState) (uc : Nat) : clientState :=
  let seg := c.segments uc
  let segs1 := setSegment c.segments uc { seg with workersRemain := seg.workersRemain - 1 }
  { c with segments := deps.cleanupUploadSegment segs1 uc }

/-- The second loop of `dropUploadSegments`. -/
def dropAll (deps : WorkerDeps) : List Nat → clientState → clientState
  | [], c => c
  | uc :: rest, c => dropAll deps rest (worker.dropSegment deps c uc)

/-- The method `worker.dropUploadSegments`. -/
def worker.dropUploadSegments (deps : WorkerDeps) (w : worker) (c : clientState) :
    worker × clientState :=
  let segmentsToDrop := w.pendingSegments
  let w1 : worker := { w with pendingSegments := [] }
  (w1, dropAll deps segmentsToDrop c)

/-- Lookup in `sessionSet`: the session and whether the key is present. -/
def sessionLookup (m : List (Nat × Option Nat)) (k : Nat) : Option Nat × Bool :=
  match m with
  | [] => (none, false)
  | (k1, v) :: rest => if k1 = k then (v, true) else sessionLookup rest k

/-- The method `worker.killUploading`; the error of `Disconnect` is only logged. -/
def worker.killUploading (deps : WorkerDeps) (w : worker) (c : clientState) :
    worker × clientState :=
  let w1 : worker := { w with uploadTerminated := true }
  let found := sessionLookup c.sessionSet w.contractID
  let c1 : clientState :=
    if found.1 ≠ none ∧ found.2 = true then
      { c with sessionSet := c.sessionSet.filter fun kv => kv.1 ≠ w.contractID }
    else c
  worker.dropUploadSegments deps w1 c1

/-- The method `worker.AppendUploadSegment`.  `contract` is the upload ability of
the active contract when `RetrieveActiveContract` finds one, `onCoolDown` what
`onUploadCoolDown` returns at the time of the call. -/
def worker.AppendUploadSegment (deps : WorkerDeps) (contract : Option Bool) (onCoolDown : Bool)
    (w : worker) (c : clientState) (uc : Nat) : worker × clientState :=
  let uploadAbility :=
    match contract with
    | some ability => ability
    | none => false
  let uploadTerminated := w.uploadTerminated
  if !uploadAbility || uploadTerminated || onCoolDown then (w, worker.dropSegment deps c uc)
  else ({ w with pendingSegments := w.pendingSegments ++ [uc], uploadChan := true }, c)

/-- A run of later `AppendUploadSegment` calls, each with its contract state, its
cool-down state and its segment. -/
def appendCalls (deps : WorkerDeps) :
    List (Option Bool × Bool × Nat) → worker → clientState → worker × clientState
  | [], w, c => (w, c)
  | (contract, onCoolDown, uc) :: rest, w, c =>
    let r := worker.AppendUploadSegment deps contract onCoolDown w c uc
    appendCalls deps rest r.1 r.2

/-- The loop of `preProcessUploadSegment` over `sectorSlotsStatus`: the first
index, counted from `i`, whose slot is false. -/
def firstUnusedFrom : List Bool → Nat → Option Nat
  | [], _ => none
  | b :: rest, i => if b = false then some i else firstUnusedFrom rest (i + 1)

/-- The method `worker.preProcessUploadSegment`: the segment returned (nil or the
segment itself), the sector index, and the client state after the call. -/
def worker.preProcessUploadSegment (deps : WorkerDeps) (contract : Option Bool)
    (onCoolDown : Bool) (w : worker) (c : clientState) (uc : Nat) :
    (Option Nat × Nat) × clientState :=
  let uploadAbility :=
    match contract with
    | some ability => ability
    | none => false
  let seg := c.segments uc
  let candidateHost := decide (w.hostID ∈ seg.unusedHosts)
  let isComplete := decide (seg.sectorsAllNeedNum ≤ seg.sectorsCompletedNum)
  let isNeedUpload :=
    decide (seg.sectorsAllNeedNum > seg.sectorsCompletedNum + seg.sectorsUploadingNum)
  if isComplete || !candidateHost || !uploadAbility || onCoolDown then
    ((none, 0), worker.dropSegment deps c uc)
  else if !isNeedUpload then
    let segs1 := setSegment c.segments uc { seg with workerBackups := seg.workerBackups ++ [w.addr] }
    ((none, 0), { c with segments := deps.cleanupUploadSegment segs1 uc })
  else
    match firstUnusedFrom seg.sectorSlotsStatus 0 with
    | none => ((none, 0), worker.dropSegment deps c uc)
    | some index =>
      let seg1 : unfinishedUploadSegment :=
        { seg with
          sectorSlotsStatus := seg.sectorSlotsStatus.set index true
          unusedHosts := seg.unusedHosts.filter fun h => h ≠ w.hostID
          sectorsUploadingNum := seg.sectorsUploadingNum + 1
          workersRemain := seg.workersRemain - 1 }
      ((some uc, index), { c with segments := setSegment c.segments uc seg1 })

/-- A segment that needs three sectors, has one uploading in slot 0, and may
still use the hosts `h1` and `h2`. -/
def exSegment : unfinishedUploadSegment :=
  { unusedHosts := ["h1", "h2"], sectorsAllNeedNum := 3, sectorsCompletedNum := 0,
    sectorsUploadingNum := 1, sectorSlotsStatus := [true, false, false], workersRemain := 2,
    workerBackups := [] }

/-- A client whose every segment address holds `exSegment`, without sessions. -/
def exClient : clientState :=
  { segments := fun _ => exSegment, sessionSet := [] }

/-- The worker of host `h1`, with nothing queued. -/
def exWorker : worker :=
  { addr := 1, hostID := "h1", contractID := 11, pendingSegments := [],
    uploadTerminated := false, uploadChan := false }

/-- A cleanup that leaves the segments as they are. -/
def exWorkerDeps : WorkerDeps :=
  { cleanupUploadSegment := fun segs _ => segs }

/-- The file of `exDxFile` when the segment stored at its first segment offset
carries the index 3, the number of segments of the DxFile. -/
def exStaleDeps : DxDeps :=
  { exDxDeps with readSegment := fun off => Except.ok { index := 3, offset := off } }

/-! ## worker.upload and the session lock -/

/-- What `upload` and `uploadFailed` read and write: the worker and the upload
queue state, the client's `sessionLock`, the sessions marked busy, the number of
signals sent on `RevisionDone`, the worker's failure bookkeeping, the sector
data and released memory of each segment, the memory returned to the memory
manager, and the panic that ended the call, if any. -/
structure uploadState where
  worker : worker
  client : clientState
  sessionLock : rwLock
  busySessions : List Nat
  revisionDone : Nat
  uploadConsecutiveFailures : Int
  uploadRecentFailure : Nat
  physicalSegmentData : Nat → List (Option Bytes)
  memoryReleased : Nat → Nat
  memoryReturned : Nat
  panic : Option Err

/-- What `upload` calls outside `workerupload.go`: the contract manager's
`IsRenewing`, the session's `IsClosed`, the backend's `SetupConnection`, the
client's `Append` and `Online`, the file entry's `AddSector`, and the clock. -/
structure UploadDeps where
  IsRenewing : Nat → Bool
  IsClosed : Nat → Bool
  SetupConnection : String → Except Err Nat
  Append : Nat → Option Bytes → Except Err Nat
  AddSector : String → Nat → Nat → Nat → Option Err
  Online : Bool
  now : Nat

/-- Assignment `sessionSet[contractID] = s`. -/
def sessionInsert (m : List (Nat × Option Nat)) (k : Nat) (v : Option Nat) :
    List (Nat × Option Nat) :=
  match m with
  | [] => [(k, v)]
  | (k1, v1) :: rest => if k1 = k then (k, v) :: rest else (k1, v1) :: sessionInsert rest k v

/-- The method `worker.uploadFailed`.  Indexing `sectorSlotsStatus` out of range
panics after the two counters have been lowered. -/
def worker.uploadFailed (deps : UploadDeps) (wdeps : WorkerDeps) (st : uploadState)
    (uc sectorIndex : Nat) : uploadState :=
  let st1 : uploadState :=
    if deps.Online = true then
      { st with
        uploadRecentFailure := deps.now
        uploadConsecutiveFailures := st.uploadConsecutiveFailures + 1 }
    else st
  let seg := st1.client.segments uc
  let seg1 : unfinishedUploadSegment :=
    { seg with
      workersRemain := seg.workersRemain - 1
      sectorsUploadingNum := seg.sectorsUploadingNum - 1 }
  if sectorIndex < seg.sectorSlotsStatus.length then
    let seg2 : unfinishedUploadSegment :=
      { seg1 with sectorSlotsStatus := seg1.sectorSlotsStatus.set sectorIndex false }
    let c1 : clientState :=
      { st1.client with segments := setSegment st1.client.segments uc seg2 }
    let c2 : clientState := { c1 with segments := wdeps.cleanupUploadSegment c1.segments uc }
    let d := worker.dropUploadSegments wdeps st1.worker c2
    { st1 with worker := d.1, client := d.2 }
  else
    { st1 with
      client := { st1.client with segments := setSegment st1.client.segments uc seg1 }
      panic := some Err.indexOutOfRange }

/-- The part of `upload` after `sessionLock.Unlock()`: the upload of the sector
through `session` and the bookkeeping that follows. -/
def uploadSector (deps : UploadDeps) (wdeps : WorkerDeps) (st : uploadState)
    (session uc sectorIndex : Nat) : uploadState :=
  match (st.physicalSegmentData uc).get? sectorIndex with
  | none => { st with panic := some Err.indexOutOfRange }
  | some data =>
    match deps.Append session data with
    | Except.error _ => worker.uploadFailed deps wdeps st uc sectorIndex
    | Except.ok root =>
      let st1 : uploadState := { st with uploadConsecutiveFailures := 0 }
      match deps.AddSector st1.worker.hostID root uc sectorIndex with
      | some _ => worker.uploadFailed deps wdeps st1 uc sectorIndex
      | none =>
        let releaseSize :=
          match data with
          | some bytes => bytes.length
          | none => 0
        let seg := st1.client.segments uc
        let seg1 : unfinishedUploadSegment :=
          { seg with
            sectorsUploadingNum := seg.sectorsUploadingNum - 1
            sectorsCompletedNum := seg.sectorsCompletedNum + 1 }
        let c1 : clientState :=
          { st1.client with segments := setSegment st1.client.segments uc seg1 }
        { st1 with
          client := { c1 with segments := wdeps.cleanupUploadSegment c1.segments uc }
          physicalSegmentData := fun q =>
            if q = uc then (st1.physicalSegmentData uc).set sectorIndex none
            else st1.physicalSegmentData q
          memoryReleased := fun q =>
            if q = uc then wrap64 (st1.memoryReleased uc + releaseSize)
            else st1.memoryReleased q
          memoryReturned := st1.memoryReturned + releaseSize }

/-- The part of `upload` from `session.SetBusy()` on: mark the session busy,
unlock `sessionLock`, upload, and run the deferred function (reset the busy
flag, signal `RevisionDone`), which also runs when the upload panics. -/
def uploadWithSession (deps : UploadDeps) (wdeps : WorkerDeps) (st : uploadState)
    (session uc sectorIndex : Nat) : uploadState :=
  let st1 : uploadState := { st with busySessions := session :: st.busySessions }
  let st2 : uploadState := { st1 with sessionLock := st1.sessionLock.Unlock }
  let st3 := uploadSector deps wdeps st2 session uc sectorIndex
  { st3 with
    busySessions := st3.busySessions.filter fun q => q ≠ session
    revisionDone := st3.revisionDone + 1 }

/-- The method `worker.upload`. -/
def worker.upload (deps : UploadDeps) (wdeps : WorkerDeps) (st : uploadState)
    (uc sectorIndex : Nat) : uploadState :=
  let contractID := st.worker.contractID
  let st1 : uploadState := { st with sessionLock := st.sessionLock.Lock }
  if deps.IsRenewing contractID = true then worker.uploadFailed deps wdeps st1 uc sectorIndex
  else
    let found := sessionLookup st1.client.sessionSet contractID
    let reusable : Option Nat :=
      match found with
      | (some session, true) => if deps.IsClosed session = true then none else some session
      | _ => none
    match reusable with
    | some session => uploadWithSession deps wdeps st1 session uc sectorIndex
    | none =>
      match deps.SetupConnection st1.worker.hostID with
      | Except.error _ => worker.uploadFailed deps wdeps st1 uc sectorIndex
      | Except.ok s =>
        let st2 : uploadState :=
          { st1 with
            client :=
              { st1.client with
                sessionSet := sessionInsert st1.client.sessionSet contractID (some s) } }
        uploadWithSession deps wdeps st2 s uc sectorIndex

/-- The worker of host `h1` about to upload, `sessionLock` free, every segment
holding three one-byte sectors. -/
def exUploadState : uploadState :=
  { worker := exWorker, client := exClient
    sessionLock := { held := 0, readers := 0, history := [] }
    busySessions := [], revisionDone := 0, uploadConsecutiveFailures := 0
    uploadRecentFailure := 0
    physicalSegmentData := fun _ => [some [1], some [2], some [3]]
    memoryReleased := fun _ => 0, memoryReturned := 0, panic := none }

/-- No contract is renewing, connections are set up as session 7, uploads and
`AddSector` succeed. -/
def exUploadDeps : UploadDeps :=
  { IsRenewing := fun _ => false, IsClosed := fun _ => false
    SetupConnection := fun _ => Except.ok 7, Append := fun _ _ => Except.ok 42
    AddSector := fun _ _ _ _ => none, Online := true, now := 100 }

/-- The same, while the contract is renewing. -/
def exUploadDepsRenewing : UploadDeps :=
  { exUploadDeps with IsRenewing := fun _ => true }

/-- The same, when the host cannot be reached. -/
def exUploadDepsNoConnection : UploadDeps :=
  { exUploadDeps with SetupConnection := fun _ => Except.error (Err.msg "dial failed") }

/-! ## More of the example environment -/

/-- Sector rows with nothing free below the new boundary: sectors 7 and 8 fill
slots 0 and 1 of folder 0, sector 9 sits in slot 3. -/
def exRowsFull : List sector :=
  [{ id := 7, folderID := 0, index := 0, count := 2 },
   { id := 8, folderID := 0, index := 1, count := 1 },
   { id := 9, folderID := 0, index := 3, count := 1 }]

/-- The manager for `exRowsFull`: folder 0 has slots 0, 1 and 3 used, and every
other folder is full. -/
def exManagerFull : storageManager :=
  { exManager with
    mem := fun p =>
      if p = 0 then
        { id := 0, path := "/data/f0", status := FolderStatus.folderAvailable, numSectors := 4,
          usage := [true, true, false, true], dataFile := 0 }
      else
        { id := p, path := "/data/f1", status := FolderStatus.folderAvailable, numSectors := 2,
          usage := [true, true], dataFile := p } }

/-- Sector rows with two sectors beyond the new boundary: sector 7 in slot 0,
sector 8 in slot 2 and sector 9 in slot 3 of folder 0. -/
def exRowsThree : List sector :=
  [{ id := 7, folderID := 0, index := 0, count := 2 },
   { id := 8, folderID := 0, index := 2, count := 1 },
   { id := 9, folderID := 0, index := 3, count := 3 }]

/-- The manager for `exRowsThree`: folder 0 has slots 0, 2 and 3 used, the other
folders are empty. -/
def exManagerThree : storageManager :=
  { exManager with
    mem := fun p =>
      if p = 0 then
        { id := 0, path := "/data/f0", status := FolderStatus.folderAvailable, numSectors := 4,
          usage := [true, false, true, true], dataFile := 0 }
      else exManager.mem p }

/-! ## Rows staged in the batch -/

/-- The sector row that `prepareNormal` builds for a relocation: the id of the
relocation with the folder, index and count of its new location. -/
def newSectorRow (r : sectorRelocation) : sector :=
  { id := r.ID, folderID := r.NewLocation.FolderID, index := r.NewLocation.Index,
    count := r.NewLocation.Count }

/-- The sector rows of a batch, in order, each with its folder-key flag. -/
def sectorRows (b : Batch) : List (sector × Bool) :=
  b.filterMap fun e =>
    match e with
    | BatchEntry.putSector s withFolderKey => some (s, withFolderKey)
    | _ => none

/-- Modelled from the spec: the batch functions of the database wrapper are
declared outside the translated files; staging an entry adds that entry at the
end of the batch it is given. -/
def Deps.batchAppends (deps : Deps) : Prop :=
  (∀ b f id, deps.deleteFolderSectorToBatch b f id = b ++ [BatchEntry.deleteFolderSector f id])
  ∧ (∀ b s w, (deps.saveSectorToBatch b s w).1 = b ++ [BatchEntry.putSector s w])
  ∧ (∀ b f, (deps.saveStorageFolderToBatch b f).1 = b ++ [BatchEntry.putFolder f])

/-! ## The manager lock in a run of one goroutine -/

/-- The call `Lock()` of `sync.RWMutex` as its caller sees it when no other
goroutine runs: it returns, with the lock taken, when nobody holds the lock, and
with a holder, exclusive or shared, it waits for a release that nobody is there
to make (`none`): the mutex is not reentrant. -/
def rwLock.lockOrWait (l : rwLock) : Option rwLock :=
  if l.held = 0 ∧ l.readers = 0 then some l.Lock else none

/-- The call `update.lockResource(manager)` in a run of one goroutine: its one
statement is `manager.lock.Lock()`, so it returns when that call does. -/
def shrinkFolderUpdate.lockResourceCall (manager : storageManager) (update : shrinkFolderUpdate) :
    Option PhaseResult :=
  match manager.lock.lockOrWait with
  | none => none
  | some _ => some (shrinkFolderUpdate.lockResource manager update)

/-- The call `update.recordIntent(manager)` in a run of one goroutine: its first
statement is `manager.lock.Lock()`, and nothing after it can wait. -/
def shrinkFolderUpdate.recordIntentCall (deps : Deps) (manager : storageManager)
    (update : shrinkFolderUpdate) : Option PhaseResult :=
  match manager.lock.lockOrWait with
  | none => none
  | some _ => some (shrinkFolderUpdate.recordIntent deps manager update)

/-- The manager and the update after `lockResource` on the example manager. -/
def exRunLocked : PhaseResult :=
  shrinkFolderUpdate.lockResource exManager exFreshUpdate

/-- The run of a shrink of `/data/f0` to two slots from `recordIntent` on, phase
by phase: after `recordIntent`. -/
def exRunIntent : PhaseResult :=
  shrinkFolderUpdate.recordIntent (exDeps exRows) exManager exFreshUpdate

/-- The run after `prepare` with target normal. -/
def exRunPrepared : PhaseResult :=
  shrinkFolderUpdate.prepare (exDeps exRows) exRunIntent.manager exRunIntent.update targetNormal

/-- The run after `process` with target normal, on the disk of the examples with
sectors of two bytes. -/
def exRunProcessed : ProcessResult Disk :=
  shrinkFolderUpdate.process diskExternal 2 exRunPrepared.manager exRunPrepared.update
    targetNormal exDisk

/-- The run after `release` with the outcome nil. -/
def exRunReleased : ReleaseResult Disk :=
  shrinkFolderUpdate.release diskExternal exRunPrepared.manager exRunPrepared.update none
    exRunProcessed.world

/-! ## Theorems -/

theorem afterCommit_pair (f : Nat) (o : Int) (n : Nat) (f2 : Nat) (o2 : Int) (d : Bytes) (n2 : Nat)
    (e2 : Option Err) (rest : List Effect) :
    afterCommit (Effect.readAt f o n none :: Effect.writeAt f2 o2 d n2 e2 :: rest)
      = afterCommit rest := by
  simp [afterCommit]

theorem relocateAll_trace_shape {σ : Type} (ext : External σ) (SectorSize : Nat)
    (manager : storageManager) (update : shrinkFolderUpdate) (l : List sectorRelocation) :
    ∀ (b : Bytes) (w : σ),
      afterCommit (relocateAll ext SectorSize manager update l b w).trace = true := by
  induction l with
  | nil => intro b w; simp [relocateAll, afterCommit]
  | cons r rest ih =>
    intro b w
    simp only [relocateAll]
    split
    · simp [afterCommit]
    · split
      · simp [afterCommit]
      · rename_i hok
        split
        · simp [afterCommit]
        · push_neg at hok
          simp only [hok.1, afterCommit_pair]
          exact ih _ _

theorem relocateAll_trace_append {σ : Type} (ext : External σ) (SectorSize : Nat)
    (manager : storageManager) (update : shrinkFolderUpdate) (tail : List Effect)
    (l : List sectorRelocation) :
    ∀ (b : Bytes) (w : σ), (relocateAll ext SectorSize manager update l b w).err = none →
      afterCommit ((relocateAll ext SectorSize manager update l b w).trace ++ tail)
        = afterCommit tail := by
  induction l with
  | nil => intro b w _; simp [relocateAll]
  | cons r rest ih =>
    intro b w
    simp only [relocateAll]
    split
    · simp
    · split
      · simp
      · rename_i hok
        split
        · simp
        · intro h
          push_neg at hok
          simp only [hok.1, List.cons_append, afterCommit_pair]
          exact ih _ _ h

theorem relocateAll_trace_transfers {σ : Type} (ext : External σ) (SectorSize : Nat)
    (manager : storageManager) (update : shrinkFolderUpdate) (l : List sectorRelocation) :
    ∀ (b : Bytes) (w : σ), ∀ e ∈ (relocateAll ext SectorSize manager update l b w).trace,
      e.isTransfer = true := by
  induction l with
  | nil => intro b w e he; simp [relocateAll] at he
  | cons r rest ih =>
    intro b w e he
    simp only [relocateAll] at he
    split at he
    · simp at he
    · split at he
      · simp at he; subst he; rfl
      · split at he
        · simp at he; subst he; rfl
        · simp only [List.mem_cons] at he
          rcases he with he | he | he
          · subst he; rfl
          · subst he; rfl
          · exact ih _ _ e he

theorem processNormal_trace_shape {σ : Type} (ext : External σ) (SectorSize : Nat)
    (manager : storageManager) (update : shrinkFolderUpdate) (w : σ) :
    protocolOrder (shrinkFolderUpdate.processNormal ext SectorSize manager update w).trace = true
    ∧ (∀ txn e, update.txn = some txn → (ext.commit txn w).err = some e →
        (shrinkFolderUpdate.processNormal ext SectorSize manager update w).err = some e
        ∧ (shrinkFolderUpdate.processNormal ext SectorSize manager update w).world = (ext.commit txn w).world
        ∧ (shrinkFolderUpdate.processNormal ext SectorSize manager update w).trace = [Effect.commit (some e)])
    ∧ (∀ file size terr,
        Effect.truncate file size terr ∈ (shrinkFolderUpdate.processNormal ext SectorSize manager update w).trace →
        ∃ moves, (∀ e ∈ moves, e.isTransfer = true)
          ∧ (shrinkFolderUpdate.processNormal ext SectorSize manager update w).trace
            = Effect.commit none
                :: (moves ++ [Effect.writeBatch none, Effect.truncate file size terr])) := by
  have htr := relocateAll_trace_transfers ext SectorSize manager update
  have hnotr : ∀ (l : List sectorRelocation) (b : Bytes) (v : σ) file size terr,
      Effect.truncate file size terr ∉ (relocateAll ext SectorSize manager update l b v).trace := by
    intro l b v file size terr hmem
    have := htr l b v _ hmem
    simp [Effect.isTransfer] at this
  cases htxn : update.txn with
  | none => simp [shrinkFolderUpdate.processNormal, htxn, protocolOrder]
  | some txn =>
    cases hc : (ext.commit txn w).err with
    | some e =>
      simp only [shrinkFolderUpdate.processNormal, htxn, hc, protocolOrder]
      refine ⟨trivial, ?_, ?_⟩
      · intro txn1 e1 h1 h2
        cases h1
        rw [hc] at h2
        cases h2
        exact ⟨rfl, rfl, rfl⟩
      · intro file size terr hmem
        simp at hmem
    | none =>
      have hcommit : ∀ (txn1 : Transaction) (e1 : Err), some txn = some txn1 →
          (ext.commit txn1 w).err = some e1 → False := by
        intro txn1 e1 h1 h2
        cases h1
        rw [hc] at h2
        cases h2
      cases hk : (relocateAll ext SectorSize manager update update.relocates
          (List.replicate SectorSize 0) (ext.commit txn w).world).err with
      | some e =>
        simp only [shrinkFolderUpdate.processNormal, htxn, hc, hk, protocolOrder]
        refine ⟨relocateAll_trace_shape ext SectorSize manager update _ _ _, ?_, ?_⟩
        · intro txn1 e1 h1 h2
          exact (hcommit txn1 e1 h1 h2).elim
        · intro file size terr hmem
          rcases List.mem_cons.mp hmem with h | h
          · cases h
          · exact absurd h (hnotr _ _ _ _ _ _)
      | none =>
        cases hb : (ext.writeBatch update.batch (relocateAll ext SectorSize manager update
            update.relocates (List.replicate SectorSize 0) (ext.commit txn w).world).world).err with
        | some e =>
          simp only [shrinkFolderUpdate.processNormal, htxn, hc, hk, hb, protocolOrder]
          refine ⟨?_, ?_, ?_⟩
          · rw [relocateAll_trace_append ext SectorSize manager update _ _ _ _ hk]
            rfl
          · intro txn1 e1 h1 h2
            exact (hcommit txn1 e1 h1 h2).elim
          · intro file size terr hmem
            rcases List.mem_cons.mp hmem with h | h
            · cases h
            · rcases List.mem_append.mp h with h | h
              · exact absurd h (hnotr _ _ _ _ _ _)
              · simp at h
        | none =>
          cases htf : update.targetFolder with
          | none =>
            simp only [shrinkFolderUpdate.processNormal, htxn, hc, hk, hb, htf, protocolOrder]
            refine ⟨?_, ?_, ?_⟩
            · rw [relocateAll_trace_append ext SectorSize manager update _ _ _ _ hk]
              rfl
            · intro txn1 e1 h1 h2
              exact (hcommit txn1 e1 h1 h2).elim
            · intro file size terr hmem
              rcases List.mem_cons.mp hmem with h | h
              · cases h
              · rcases List.mem_append.mp h with h | h
                · exact absurd h (hnotr _ _ _ _ _ _)
                · simp at h
          | some tf =>
            simp only [shrinkFolderUpdate.processNormal, htxn, hc, hk, hb, htf, protocolOrder]
            refine ⟨?_, ?_, ?_⟩
            · rw [relocateAll_trace_append ext SectorSize manager update _ _ _ _ hk]
              rfl
            · intro txn1 e1 h1 h2
              exact (hcommit txn1 e1 h1 h2).elim
            · intro file size terr hmem
              rcases List.mem_cons.mp hmem with h | h
              · cases h
              · rcases List.mem_append.mp h with h | h
                · exact absurd h (hnotr _ _ _ _ _ _)
                · simp only [List.mem_cons, List.mem_nil_iff, or_false] at h
                  rcases h with h | h
                  · cases h
                  · refine ⟨(relocateAll ext SectorSize manager update update.relocates
                      (List.replicate SectorSize 0) (ext.commit txn w).world).trace,
                      htr _ _ _, ?_⟩
                    rw [h]

theorem relocateAll_calls {σ : Type} (ext : External σ) (SectorSize : Nat)
    (manager : storageManager) (update : shrinkFolderUpdate) (tf : Ptr)
    (htf : update.targetFolder = some tf) (l : List sectorRelocation) :
    ∀ (b : Bytes) (w : σ),
      (relocateAll ext SectorSize manager update l b w).trace.map Effect.call
          <+: transferCalls SectorSize manager update tf l
      ∧ ((relocateAll ext SectorSize manager update l b w).err = none →
          (relocateAll ext SectorSize manager update l b w).trace.map Effect.call
            = transferCalls SectorSize manager update tf l) := by
  induction l with
  | nil => intro b w; simp [relocateAll, transferCalls]
  | cons r rest ih =>
    intro b w
    simp only [relocateAll, htf, transferCalls, relocationCalls]
    split
    · simp [Effect.call]
    · cases hdst : mapLookup update.folders r.NewLocation.FolderID with
      | none => simp [Effect.call]
      | some dst =>
        obtain ⟨h1, h2⟩ := ih
          (ext.readAt (manager.mem tf).dataFile b
            (toInt64 ((r.PrevLocation.Index * SectorSize) % 2 ^ 64)) w).buf
          (ext.writeAt (manager.mem dst).dataFile
            (ext.readAt (manager.mem tf).dataFile b
              (toInt64 ((r.PrevLocation.Index * SectorSize) % 2 ^ 64)) w).buf
            (toInt64 r.NewLocation.Index)
            (ext.readAt (manager.mem tf).dataFile b
              (toInt64 ((r.PrevLocation.Index * SectorSize) % 2 ^ 64)) w).world).world
        simp only [List.map_cons, Effect.call, List.cons_append, List.nil_append,
          List.cons_prefix_cons, true_and, List.cons.injEq]
        exact ⟨h1, h2⟩

theorem processNormal_calls {σ : Type} (ext : External σ) (SectorSize : Nat)
    (manager : storageManager) (update : shrinkFolderUpdate) (w : σ) :
    ((shrinkFolderUpdate.processNormal ext SectorSize manager update w).trace.map Effect.call
        <+: plannedCalls SectorSize manager update)
    ∧ ((shrinkFolderUpdate.processNormal ext SectorSize manager update w).err = none →
        (shrinkFolderUpdate.processNormal ext SectorSize manager update w).trace.map Effect.call
          = plannedCalls SectorSize manager update)
    ∧ (∀ file size terr,
        Effect.truncate file size terr
          ∈ (shrinkFolderUpdate.processNormal ext SectorSize manager update w).trace →
        (shrinkFolderUpdate.processNormal ext SectorSize manager update w).trace.map Effect.call
          = plannedCalls SectorSize manager update) := by
  have htr := relocateAll_trace_transfers ext SectorSize manager update
  have hnotr : ∀ (l : List sectorRelocation) (b : Bytes) (v : σ) file size terr,
      Effect.truncate file size terr ∉ (relocateAll ext SectorSize manager update l b v).trace := by
    intro l b v file size terr hmem
    have := htr l b v _ hmem
    simp [Effect.isTransfer] at this
  cases htxn : update.txn with
  | none => simp [shrinkFolderUpdate.processNormal, htxn]
  | some txn =>
    cases hc : (ext.commit txn w).err with
    | some e =>
      simp only [shrinkFolderUpdate.processNormal, htxn, hc]
      refine ⟨?_, by simp, by simp⟩
      unfold plannedCalls
      split <;> simp [Effect.call]
    | none =>
      cases htf : update.targetFolder with
      | none =>
        cases hrel : update.relocates with
        | nil =>
          simp only [shrinkFolderUpdate.processNormal, htxn, hc, htf, hrel, relocateAll,
            plannedCalls]
          split <;> simp [Effect.call]
        | cons r rest =>
          simp [shrinkFolderUpdate.processNormal, htxn, hc, htf, hrel, relocateAll,
            plannedCalls, Effect.call]
      | some tf =>
        obtain ⟨hp, he⟩ := relocateAll_calls ext SectorSize manager update tf htf
          update.relocates (List.replicate SectorSize 0) (ext.commit txn w).world
        cases hk : (relocateAll ext SectorSize manager update update.relocates
            (List.replicate SectorSize 0) (ext.commit txn w).world).err with
        | some e =>
          simp only [shrinkFolderUpdate.processNormal, htxn, hc, hk, htf, plannedCalls]
          refine ⟨?_, by simp, ?_⟩
          · simp only [List.map_cons, Effect.call, List.cons_prefix_cons, true_and]
            exact hp.trans (List.prefix_append _ _)
          · intro file size terr hmem
            rcases List.mem_cons.mp hmem with h | h
            · cases h
            · exact absurd h (hnotr _ _ _ _ _ _)
        | none =>
          have heq := he hk
          cases hb : (ext.writeBatch update.batch (relocateAll ext SectorSize manager update
              update.relocates (List.replicate SectorSize 0) (ext.commit txn w).world).world).err with
          | some e =>
            simp only [shrinkFolderUpdate.processNormal, htxn, hc, hk, hb, htf, plannedCalls]
            refine ⟨?_, by simp, ?_⟩
            · simp only [List.map_cons, List.map_append, List.map_nil, Effect.call,
                List.cons_prefix_cons, true_and, heq]
              exact (List.prefix_append_right_inj _).mpr (by simp)
            · intro file size terr hmem
              rcases List.mem_cons.mp hmem with h | h
              · cases h
              · rcases List.mem_append.mp h with h | h
                · exact absurd h (hnotr _ _ _ _ _ _)
                · simp at h
          | none =>
            simp only [shrinkFolderUpdate.processNormal, htxn, hc, hk, hb, htf, plannedCalls]
            have hfull : (Effect.commit none ::
                ((relocateAll ext SectorSize manager update update.relocates
                    (List.replicate SectorSize 0) (ext.commit txn w).world).trace
                  ++ [Effect.writeBatch none,
                      Effect.truncate (manager.mem tf).dataFile
                        (toInt64 (numSectorsToSize SectorSize update.targetNumSectors))
                        (ext.truncate (manager.mem tf).dataFile
                          (toInt64 (numSectorsToSize SectorSize update.targetNumSectors))
                          (ext.writeBatch update.batch
                            (relocateAll ext SectorSize manager update update.relocates
                              (List.replicate SectorSize 0)
                              (ext.commit txn w).world).world).world).err])).map Effect.call
                = Call.commit :: (transferCalls SectorSize manager update tf update.relocates
                    ++ [Call.writeBatch,
                        Call.truncate (manager.mem tf).dataFile
                          (toInt64 (numSectorsToSize SectorSize update.targetNumSectors))]) := by
              simp only [List.map_cons, List.map_append, List.map_nil, Effect.call, heq]
            exact ⟨by rw [hfull], fun _ => hfull, fun _ _ _ _ => hfull⟩

/-- C3: the calls that a run of `processNormal` makes outside the process are a
prefix of the planned sequence (`plannedCalls`): the commit, then for every
relocation of `update.relocates`, in order, the read of its old slot and the
write to its new location, then the batch write, then the truncate; a run that
returns nil, and every run in which a truncate is made, has made the whole
sequence.  Besides, the outcomes are in order (`protocolOrder`): a write follows
only a read that came back without error, and the truncate follows only a batch
write without error and is last; when the commit fails its error is returned and
the commit is the only call made. -/
theorem processNormal_effect_order {σ : Type} (ext : External σ) (SectorSize : Nat)
    (manager : storageManager) (update : shrinkFolderUpdate) (w : σ) :
    ((shrinkFolderUpdate.processNormal ext SectorSize manager update w).trace.map Effect.call
        <+: plannedCalls SectorSize manager update)
    ∧ ((shrinkFolderUpdate.processNormal ext SectorSize manager update w).err = none →
        (shrinkFolderUpdate.processNormal ext SectorSize manager update w).trace.map Effect.call
          = plannedCalls SectorSize manager update)
    ∧ protocolOrder (shrinkFolderUpdate.processNormal ext SectorSize manager update w).trace = true
    ∧ (∀ txn e, update.txn = some txn → (ext.commit txn w).err = some e →
        (shrinkFolderUpdate.processNormal ext SectorSize manager update w).err = some e
        ∧ (shrinkFolderUpdate.processNormal ext SectorSize manager update w).world = (ext.commit txn w).world
        ∧ (shrinkFolderUpdate.processNormal ext SectorSize manager update w).trace = [Effect.commit (some e)])
    ∧ (∀ file size terr,
        Effect.truncate file size terr ∈ (shrinkFolderUpdate.processNormal ext SectorSize manager update w).trace →
        (shrinkFolderUpdate.processNormal ext SectorSize manager update w).trace.map Effect.call
          = plannedCalls SectorSize manager update
        ∧ ∃ moves, (∀ e ∈ moves, e.isTransfer = true)
          ∧ (shrinkFolderUpdate.processNormal ext SectorSize manager update w).trace
            = Effect.commit none
                :: (moves ++ [Effect.writeBatch none, Effect.truncate file size terr])) :=
  ⟨(processNormal_calls ext SectorSize manager update w).1,
    (processNormal_calls ext SectorSize manager update w).2.1,
    (processNormal_trace_shape ext SectorSize manager update w).1,
    (processNormal_trace_shape ext SectorSize manager update w).2.1,
    fun file size terr h =>
      ⟨(processNormal_calls ext SectorSize manager update w).2.2 file size terr h,
        (processNormal_trace_shape ext SectorSize manager update w).2.2 file size terr h⟩⟩

/-- Whatever the sector size and the behaviour of the files: when the read of a
relocation comes back full and the destination folder is known, the write that
follows is at byte offset `int64(NewLocation.Index)`. -/
theorem relocateAll_write_offset {σ : Type} (ext : External σ) (SectorSize : Nat)
    (manager : storageManager) (update : shrinkFolderUpdate) (r : sectorRelocation)
    (rest : List sectorRelocation) (b : Bytes) (w : σ) (tf dst : Ptr)
    (htf : update.targetFolder = some tf)
    (hdst : mapLookup update.folders r.NewLocation.FolderID = some dst)
    (herr : (ext.readAt (manager.mem tf).dataFile b
      (toInt64 ((r.PrevLocation.Index * SectorSize) % 2 ^ 64)) w).err = none)
    (hn : (ext.readAt (manager.mem tf).dataFile b
      (toInt64 ((r.PrevLocation.Index * SectorSize) % 2 ^ 64)) w).n = SectorSize) :
    ∃ data n err tail,
      (relocateAll ext SectorSize manager update (r :: rest) b w).trace
        = Effect.readAt (manager.mem tf).dataFile
            (toInt64 ((r.PrevLocation.Index * SectorSize) % 2 ^ 64)) SectorSize none
          :: Effect.writeAt (manager.mem dst).dataFile (toInt64 r.NewLocation.Index) data n err
          :: tail := by
  simp only [relocateAll, htf, hdst, herr, hn]
  simp

/-- C1: on a disk whose file 0 holds four two-byte slots (`SectorSize = 2`), the
relocation of sector 9 from slot 3 to slot 1 reads `[7, 8]` at byte offset
`3 × 2 = 6` and writes them at byte offset 1, the slot index itself, not at
`1 × 2 = 2`: the file ends as `[1, 7, 8, 4]` where slot 1 at offset 2 should
hold `[7, 8]`. -/
theorem processNormal_write_offset_is_index :
    exPrepared.update.relocates
      = [{ ID := 9, PrevLocation := { FolderID := 0, Index := 3, Count := 1 }
           NewLocation := { FolderID := 0, Index := 1, Count := 1 } }]
    ∧ (shrinkFolderUpdate.processNormal diskExternal 2 exPrepared.manager exPrepared.update
        exDisk).err = none
    ∧ (shrinkFolderUpdate.processNormal diskExternal 2 exPrepared.manager exPrepared.update
        exDisk).trace
      = [Effect.commit none, Effect.readAt 0 6 2 none, Effect.writeAt 0 1 [7, 8] 2 none,
         Effect.writeBatch none, Effect.truncate 0 4 none]
    ∧ (shrinkFolderUpdate.processNormal diskExternal 2 exPrepared.manager exPrepared.update
        exDisk).world.files = [[1, 7, 8, 4]] := by
  decide

/-- C2: when the `WriteAt` of the one relocation fails having written nothing,
`processNormal` still writes the batch, truncates the data file and returns
nil: the bytes `[7, 8]` of sector 9 are in neither slot afterwards. -/
theorem processNormal_ignores_write_error :
    (shrinkFolderUpdate.processNormal diskExternal 2 exPrepared.manager exPrepared.update
        exDiskWriteFails).err = none
    ∧ (shrinkFolderUpdate.processNormal diskExternal 2 exPrepared.manager exPrepared.update
        exDiskWriteFails).trace
      = [Effect.commit none, Effect.readAt 0 6 2 none,
         Effect.writeAt 0 1 [7, 8] 0 (some (Err.msg "input/output error")),
         Effect.writeBatch none, Effect.truncate 0 4 none]
    ∧ (shrinkFolderUpdate.processNormal diskExternal 2 exPrepared.manager exPrepared.update
        exDiskWriteFails).world.files = [[1, 2, 3, 4]] := by
  decide

/-! ### prepareNormal of the shrink update -/

theorem stageRelocation_manager (deps : Deps) (tf rf : Ptr) (s : sector) (index : Nat)
    (once : Bool) (manager : storageManager) (update : shrinkFolderUpdate) :
    (stageRelocation deps tf rf s index once manager update).manager = manager := by
  simp only [stageRelocation]
  repeat' split
  all_goals rfl

theorem stageRelocation_relocates (deps : Deps) (tf rf : Ptr) (s : sector) (index : Nat)
    (once : Bool) (manager : storageManager) (update : shrinkFolderUpdate) :
    (stageRelocation deps tf rf s index once manager update).update.relocates
      = update.relocates ++ [mkRelocation s (manager.mem rf).id index] := by
  simp only [stageRelocation]
  repeat' split
  all_goals rfl

theorem stageRelocation_target (deps : Deps) (tf rf : Ptr) (s : sector) (index : Nat)
    (once : Bool) (manager : storageManager) (update : shrinkFolderUpdate) :
    (stageRelocation deps tf rf s index once manager update).update.targetNumSectors
      = update.targetNumSectors := by
  simp only [stageRelocation]
  repeat' split
  all_goals rfl

theorem store_mem (m : storageManager) (p q : Ptr) (f : storageFolder) :
    (m.store p f).mem q = if q = p then f else m.mem q := rfl

theorem relocateOne_status (deps : Deps) (tf : Ptr) (s : sector) (once : Bool)
    (manager : storageManager) (update : shrinkFolderUpdate) (p : Ptr) :
    ((relocateOne deps tf s once manager update).manager.mem p).status
      = (manager.mem p).status := by
  simp only [relocateOne]
  repeat' split
  all_goals simp only [stageRelocation_manager, store_mem]
  all_goals repeat' split
  all_goals simp_all

theorem relocateOne_target (deps : Deps) (tf : Ptr) (s : sector) (once : Bool)
    (manager : storageManager) (update : shrinkFolderUpdate) :
    (relocateOne deps tf s once manager update).update.targetNumSectors
      = update.targetNumSectors := by
  simp only [relocateOne]
  repeat' split
  all_goals first
    | rfl
    | rw [stageRelocation_target]

theorem relocateOne_relocates (deps : Deps) (tf : Ptr) (s : sector) (once : Bool)
    (manager : storageManager) (update : shrinkFolderUpdate) :
    ((relocateOne deps tf s once manager update).update.relocates = update.relocates
      ∧ (relocateOne deps tf s once manager update).ret ≠ none)
    ∨ ∃ dst index, (relocateOne deps tf s once manager update).update.relocates
        = update.relocates ++ [mkRelocation s dst index] := by
  simp only [relocateOne]
  repeat' split
  all_goals first
    | exact Or.inl ⟨rfl, fun h => by cases h⟩
    | exact Or.inr ⟨_, _, by rw [stageRelocation_relocates]⟩

/-- Whatever `prepareNormal` returns: the relocations its loop has added pair
off, in order, with the first of the sectors that have to move. -/
theorem prepareLoop_records (deps : Deps) (tf : Ptr) (ids : List sectorID) :
    ∀ (once : Bool) (manager : storageManager) (update : shrinkFolderUpdate),
      ∃ moved added, moved <+: sectorsToMove deps update.targetNumSectors ids
        ∧ (prepareLoop deps tf ids once manager update).update.relocates
          = update.relocates ++ added
        ∧ List.Forall₂ (fun s r => ∃ dst index, r = mkRelocation s dst index) moved added := by
  induction ids with
  | nil =>
    intro once manager update
    exact ⟨[], [], by simp, by simp [prepareLoop], List.Forall₂.nil⟩
  | cons id ids ih =>
    intro once manager update
    simp only [prepareLoop]
    cases hs : deps.getSector id with
    | error e => exact ⟨[], [], by simp, by simp, List.Forall₂.nil⟩
    | ok s =>
      simp only []
      by_cases hlt : s.index < update.targetNumSectors
      · simp only [hlt, if_true]
        obtain ⟨moved, added, h0, h1, h2⟩ := ih once manager update
        refine ⟨moved, added, ?_, h1, h2⟩
        have hm : sectorsToMove deps update.targetNumSectors (id :: ids)
            = sectorsToMove deps update.targetNumSectors ids := by
          simp [sectorsToMove, hs, hlt]
        rw [hm]
        exact h0
      · simp only [hlt, if_false]
        have hm : sectorsToMove deps update.targetNumSectors (id :: ids)
            = s :: sectorsToMove deps update.targetNumSectors ids := by
          simp [sectorsToMove, hs, hlt]
        cases hr : (relocateOne deps tf s once manager update).ret with
        | some res =>
          simp only []
          rcases relocateOne_relocates deps tf s once manager update with ⟨h, _⟩ | ⟨dst, index, h⟩
          · exact ⟨[], [], by simp, by rw [h]; simp, List.Forall₂.nil⟩
          · refine ⟨[s], [mkRelocation s dst index], ?_, h,
              List.Forall₂.cons ⟨dst, index, rfl⟩ List.Forall₂.nil⟩
            rw [hm]
            simp
        | none =>
          simp only []
          rcases relocateOne_relocates deps tf s once manager update with ⟨_, hne⟩ | ⟨dst, index, h⟩
          · exact absurd hr hne
          · obtain ⟨moved, added, h0, h1, h2⟩ := ih true
              (relocateOne deps tf s once manager update).manager
              (relocateOne deps tf s once manager update).update
            rw [relocateOne_target] at h0
            refine ⟨s :: moved, mkRelocation s dst index :: added, ?_, ?_,
              List.Forall₂.cons ⟨dst, index, rfl⟩ h2⟩
            · rw [hm]
              exact List.cons_prefix_cons.mpr ⟨rfl, h0⟩
            · rw [h1, h]
              simp

theorem prepareLoop_status (deps : Deps) (tf : Ptr) (ids : List sectorID) :
    ∀ (once : Bool) (manager : storageManager) (update : shrinkFolderUpdate) (p : Ptr),
      ((prepareLoop deps tf ids once manager update).manager.mem p).status
        = (manager.mem p).status := by
  induction ids with
  | nil => intro once manager update p; simp [prepareLoop]
  | cons id ids ih =>
    intro once manager update p
    simp only [prepareLoop]
    cases hs : deps.getSector id with
    | error e => rfl
    | ok s =>
      simp only []
      by_cases hlt : s.index < update.targetNumSectors
      · simp only [hlt, if_true]
        exact ih _ _ _ _
      · simp only [hlt, if_false]
        cases hr : (relocateOne deps tf s once manager update).ret with
        | some res => simp only []; exact relocateOne_status deps tf s once manager update p
        | none =>
          simp only []
          rw [ih]
          exact relocateOne_status deps tf s once manager update p

/-- C4: `prepareNormal` returns nil with a sector beyond the new boundary left
without a relocation.  In the shrink of folder 0 to two slots with slots 0 and 1
taken and every other folder full, sector 9 in slot 3 has to move, no folder
has room for it, and the result is nil with no relocation at all.  And with
sectors 8 and 9 in slots 2 and 3 and a log transaction whose initialisation
ended with an error, the result is nil with the one relocation of sector 8:
sector 9 has none. -/
theorem prepareNormal_nil_leaves_sector :
    (exDeps exRowsFull).getAllSectorsIDsFromFolder (exManagerFull.mem 0).id = [7, 8, 9]
    ∧ sectorsToMove (exDeps exRowsFull) exIntentUpdate.targetNumSectors [7, 8, 9]
      = [{ id := 9, folderID := 0, index := 3, count := 1 }]
    ∧ (shrinkFolderUpdate.prepareNormal (exDeps exRowsFull) exManagerFull exIntentUpdate).err
      = none
    ∧ (shrinkFolderUpdate.prepareNormal (exDeps exRowsFull) exManagerFull
        exIntentUpdate).update.relocates = []
    ∧ (exDeps exRowsThree).getAllSectorsIDsFromFolder (exManagerThree.mem 0).id = [7, 8, 9]
    ∧ sectorsToMove (exDeps exRowsThree) exIntentUpdateInitErr.targetNumSectors [7, 8, 9]
      = [{ id := 8, folderID := 0, index := 2, count := 1 },
         { id := 9, folderID := 0, index := 3, count := 3 }]
    ∧ (shrinkFolderUpdate.prepareNormal (exDeps exRowsThree) exManagerThree
        exIntentUpdateInitErr).err = none
    ∧ (shrinkFolderUpdate.prepareNormal (exDeps exRowsThree) exManagerThree
        exIntentUpdateInitErr).update.relocates
      = [{ ID := 8, PrevLocation := { FolderID := 0, Index := 2, Count := 1 }
           NewLocation := { FolderID := 0, Index := 1, Count := 1 } }] := by
  decide

/-! ### recordIntent of the shrink update -/

/-- C10 as stated fails: `recordIntent` on the fresh update for `/data/f0`
returns nil with the target folder at address 0, and that folder is still
`folderAvailable`. -/
theorem recordIntent_leaves_folder_available :
    (shrinkFolderUpdate.recordIntent (exDeps exRows) exManager exFreshUpdate).err = none
    ∧ (shrinkFolderUpdate.recordIntent (exDeps exRows) exManager exFreshUpdate).update.targetFolder
      = some 0
    ∧ ((shrinkFolderUpdate.recordIntent (exDeps exRows) exManager exFreshUpdate).manager.mem 0).status
      = FolderStatus.folderAvailable
    ∧ ((shrinkFolderUpdate.recordIntent (exDeps exRows) exManager exFreshUpdate).manager.mem 0).status
      ≠ FolderStatus.folderUnavailable := by
  decide

theorem prepareNormal_marks_unavailable (deps : Deps) (manager : storageManager)
    (update : shrinkFolderUpdate) (tf : Ptr) (htf : update.targetFolder = some tf) :
    ((shrinkFolderUpdate.prepareNormal deps manager update).manager.mem tf).status
      = FolderStatus.folderUnavailable := by
  unfold shrinkFolderUpdate.prepareNormal
  simp only [htf]
  rw [prepareLoop_status]
  simp [store_mem]

/-- C10, amended: when `recordIntent` returns nil it has set the target folder
and left the status of every folder as it was before the call; the target
folder is `folderUnavailable` once `prepareNormal` has run on the result,
whatever `prepareNormal` returns. -/
theorem recordIntent_status_unchanged (deps : Deps) (manager : storageManager)
    (update : shrinkFolderUpdate)
    (hok : (shrinkFolderUpdate.recordIntent deps manager update).err = none) :
    ∃ tf, (shrinkFolderUpdate.recordIntent deps manager update).update.targetFolder = some tf
      ∧ (∀ p, ((shrinkFolderUpdate.recordIntent deps manager update).manager.mem p).status
          = (manager.mem p).status)
      ∧ ((shrinkFolderUpdate.prepareNormal deps
            (shrinkFolderUpdate.recordIntent deps manager update).manager
            (shrinkFolderUpdate.recordIntent deps manager update).update).manager.mem tf).status
          = FolderStatus.folderUnavailable := by
  have key : ∃ tf, (shrinkFolderUpdate.recordIntent deps manager update).update.targetFolder
        = some tf
      ∧ (∀ p, ((shrinkFolderUpdate.recordIntent deps manager update).manager.mem p).status
          = (manager.mem p).status) := by
    revert hok
    simp only [shrinkFolderUpdate.recordIntent]
    repeat' split
    all_goals intro hok
    all_goals first
      | exact ⟨_, rfl, fun _ => rfl⟩
      | cases hok
  obtain ⟨tf, h1, h2⟩ := key
  exact ⟨tf, h1, h2, prepareNormal_marks_unavailable deps _ _ tf h1⟩

/-- The hypothesis of `recordIntent_status_unchanged` holds for the fresh update
for `/data/f0` on the example manager. -/
theorem recordIntent_status_unchanged_witness :
    (shrinkFolderUpdate.recordIntent (exDeps exRows) exManager exFreshUpdate).err = none
    ∧ ∃ tf, (shrinkFolderUpdate.recordIntent (exDeps exRows) exManager
          exFreshUpdate).update.targetFolder = some tf
      ∧ (∀ p, ((shrinkFolderUpdate.recordIntent (exDeps exRows) exManager
          exFreshUpdate).manager.mem p).status = (exManager.mem p).status)
      ∧ ((shrinkFolderUpdate.prepareNormal (exDeps exRows)
            (shrinkFolderUpdate.recordIntent (exDeps exRows) exManager exFreshUpdate).manager
            (shrinkFolderUpdate.recordIntent (exDeps exRows) exManager
              exFreshUpdate).update).manager.mem tf).status
          = FolderStatus.folderUnavailable :=
  ⟨by decide, recordIntent_status_unchanged (exDeps exRows) exManager exFreshUpdate (by decide)⟩

/-! ### deleteSectorBatchUpdate -/

theorem loadLoop_loaded (deps : Deps) (folders : FolderMap) (ids : List sectorID) :
    ∀ (sectors : List sector) (paths : List String),
      ∃ loaded, (loadLoop deps folders ids sectors paths).2.1 = sectors ++ loaded
        ∧ List.Forall₂ (fun id s => deps.getSector id = Except.ok s)
            (ids.take loaded.length) loaded
        ∧ ((loadLoop deps folders ids sectors paths).1 = none → loaded.length = ids.length)
        ∧ ((loadLoop deps folders ids sectors paths).1 = some none →
            ∃ id ∈ ids, ∃ e, deps.getSector id = Except.error e) := by
  induction ids with
  | nil =>
    intro sectors paths
    exact ⟨[], by simp [loadLoop], List.Forall₂.nil, fun _ => rfl,
      fun h => by simp [loadLoop] at h⟩
  | cons id ids ih =>
    intro sectors paths
    have step : ∀ (s : sector) (ps : List String), deps.getSector id = Except.ok s →
        ∃ loaded, (loadLoop deps folders ids (sectors ++ [s]) ps).2.1 = sectors ++ loaded
          ∧ List.Forall₂ (fun id s => deps.getSector id = Except.ok s)
              ((id :: ids).take loaded.length) loaded
          ∧ ((loadLoop deps folders ids (sectors ++ [s]) ps).1 = none →
              loaded.length = (id :: ids).length)
          ∧ ((loadLoop deps folders ids (sectors ++ [s]) ps).1 = some none →
              ∃ id1 ∈ id :: ids, ∃ e, deps.getSector id1 = Except.error e) := by
      intro s ps hs
      obtain ⟨loaded, h1, h2, h3, h4⟩ := ih (sectors ++ [s]) ps
      refine ⟨s :: loaded, by rw [h1]; simp, ?_, ?_, ?_⟩
      · rw [List.length_cons, List.take_succ_cons]
        exact List.Forall₂.cons hs h2
      · intro h
        simp [h3 h]
      · intro h
        obtain ⟨id1, hmem, e, he⟩ := h4 h
        exact ⟨id1, List.mem_cons_of_mem _ hmem, e, he⟩
    simp only [loadLoop]
    cases hs : deps.getSector id with
    | error e =>
      refine ⟨[], by simp, by simp, fun h => (by cases h), fun _ => ?_⟩
      exact ⟨id, List.mem_cons_self _ _, e, hs⟩
    | ok s =>
      simp only []
      split
      · exact step s paths hs
      · split
        · cases hp : deps.getFolderPath s.folderID with
          | error e =>
            refine ⟨[s], by simp, ?_, fun h => (by cases h), fun h => (by cases h)⟩
            rw [List.length_singleton, List.take_succ_cons, List.take_zero]
            exact List.Forall₂.cons hs List.Forall₂.nil
          | ok path => exact step s (paths ++ [path]) hs
        · exact step s paths hs

theorem deleteStep_forall2 (l : List sector) :
    List.Forall₂
      (fun s t => t.id = s.id ∧ t.folderID = s.folderID ∧ t.index = s.index
        ∧ (s.count ≤ 1 → t.count = 0))
      l (l.map deleteStep) := by
  induction l with
  | nil => exact List.Forall₂.nil
  | cons s l ih =>
    refine List.Forall₂.cons ?_ ih
    unfold deleteStep
    split
    · exact ⟨rfl, rfl, rfl, fun _ => rfl⟩
    · rename_i h
      exact ⟨rfl, rfl, rfl, fun h1 => absurd h1 h⟩

/-- C5: when the delete-batch `prepareNormal` returns nil, the sectors it has
loaded are the rows of the first ids of the update, of all of them when every
id has a row, and in `update.sectors` each sector (those held before the call
followed by the loaded ones, in order) keeps its id, folder and index and has
count 0 whenever its count was at most 1. -/
theorem deletePrepareNormal_count_zero (deps : Deps) (manager : storageManager)
    (update : deleteSectorBatchUpdate)
    (hok : (deleteSectorBatchUpdate.prepareNormal deps manager update).err = none) :
    ∃ loaded,
      List.Forall₂ (fun id s => deps.getSector id = Except.ok s)
        (update.ids.take loaded.length) loaded
      ∧ ((∀ id ∈ update.ids, ∃ s, deps.getSector id = Except.ok s) →
          loaded.length = update.ids.length)
      ∧ List.Forall₂
          (fun s t => t.id = s.id ∧ t.folderID = s.folderID ∧ t.index = s.index
            ∧ (s.count ≤ 1 → t.count = 0))
          (update.sectors ++ loaded)
          (deleteSectorBatchUpdate.prepareNormal deps manager update).update.sectors := by
  obtain ⟨loaded, h1, h2, h3, h4⟩ :=
    loadLoop_loaded deps update.folders update.ids update.sectors []
  refine ⟨loaded, h2, ?_, ?_⟩
  · intro hall
    cases hl : (loadLoop deps update.folders update.ids update.sectors []).1 with
    | none => exact h3 hl
    | some res =>
      cases res with
      | none =>
        obtain ⟨id, hmem, e, he⟩ := h4 hl
        obtain ⟨s, hs⟩ := hall id hmem
        rw [hs] at he
        cases he
      | some e =>
        simp [deleteSectorBatchUpdate.prepareNormal,
          deleteSectorBatchUpdate.loadSectorsAndFolders, hl] at hok
  · revert hok
    simp only [deleteSectorBatchUpdate.prepareNormal,
      deleteSectorBatchUpdate.loadSectorsAndFolders]
    cases hl : (loadLoop deps update.folders update.ids update.sectors []).1 with
    | none =>
      simp only []
      cases hf : deps.getFolders
          (loadLoop deps update.folders update.ids update.sectors []).2.2 with
      | error e => intro hok; cases hok
      | ok fs =>
        intro _
        simp only [h1]
        exact deleteStep_forall2 _
    | some res =>
      cases res with
      | none =>
        intro _
        simp only [h1]
        exact deleteStep_forall2 _
      | some e => intro hok; cases hok

/-- The hypothesis of `deletePrepareNormal_count_zero` holds for deleting sectors
7 and 9 of the example table. -/
theorem deletePrepareNormal_count_zero_witness :
    (deleteSectorBatchUpdate.prepareNormal (exDeps exRows) exManager
      (storageManager.createDeleteSectorBatchUpdate (exDeps exRows) [7, 9])).err = none
    ∧ ∃ loaded,
      List.Forall₂ (fun id s => (exDeps exRows).getSector id = Except.ok s)
        ((storageManager.createDeleteSectorBatchUpdate (exDeps exRows) [7, 9]).ids.take
          loaded.length) loaded
      ∧ ((∀ id ∈ (storageManager.createDeleteSectorBatchUpdate (exDeps exRows) [7, 9]).ids,
            ∃ s, (exDeps exRows).getSector id = Except.ok s) →
          loaded.length
            = (storageManager.createDeleteSectorBatchUpdate (exDeps exRows) [7, 9]).ids.length)
      ∧ List.Forall₂
          (fun s t => t.id = s.id ∧ t.folderID = s.folderID ∧ t.index = s.index
            ∧ (s.count ≤ 1 → t.count = 0))
          ((storageManager.createDeleteSectorBatchUpdate (exDeps exRows) [7, 9]).sectors ++ loaded)
          (deleteSectorBatchUpdate.prepareNormal (exDeps exRows) exManager
            (storageManager.createDeleteSectorBatchUpdate (exDeps exRows) [7, 9])).update.sectors :=
  ⟨by decide,
    deletePrepareNormal_count_zero (exDeps exRows) exManager
      (storageManager.createDeleteSectorBatchUpdate (exDeps exRows) [7, 9]) (by decide)⟩

/-- The manager's folders are the same after the delete-batch `prepareNormal`
as before it, whatever it returns. -/
theorem deletePrepareNormal_mem (deps : Deps) (manager : storageManager)
    (update : deleteSectorBatchUpdate) :
    (deleteSectorBatchUpdate.prepareNormal deps manager update).manager.mem = manager.mem := by
  simp only [deleteSectorBatchUpdate.prepareNormal,
    deleteSectorBatchUpdate.loadSectorsAndFolders]
  repeat' split
  all_goals rfl

/-- The loop body leaves a sector with more than one reference as it is. -/
theorem deleteStep_virtual (s : sector) (h : 1 < s.count) : deleteStep s = s := by
  unfold deleteStep
  rw [if_neg (Nat.not_le.mpr h)]

/-- C6: deleting sector 7, whose row has count 2, `prepareNormal` returns nil and
the loaded sector still has count 2, not 1. -/
theorem deletePrepareNormal_keeps_virtual_count :
    (exDeps exRows).getSector 7 = Except.ok { id := 7, folderID := 0, index := 0, count := 2 }
    ∧ (deleteSectorBatchUpdate.prepareNormal (exDeps exRows) exManager
        (storageManager.createDeleteSectorBatchUpdate (exDeps exRows) [7])).err = none
    ∧ (deleteSectorBatchUpdate.prepareNormal (exDeps exRows) exManager
        (storageManager.createDeleteSectorBatchUpdate (exDeps exRows) [7])).update.sectors
      = [{ id := 7, folderID := 0, index := 0, count := 2 }] :=
  ⟨rfl, by decide⟩

/-- C7: deleting sector 9, whose row has count 1 and sits in slot 3 of folder 0,
`prepareNormal` returns nil, has loaded folder 0 and set the count to 0, and
slot 3 of folder 0 is still marked used in the in-memory bitmap. -/
theorem deletePrepareNormal_keeps_slot_used :
    (exDeps exRows).getSector 9 = Except.ok { id := 9, folderID := 0, index := 3, count := 1 }
    ∧ (deleteSectorBatchUpdate.prepareNormal (exDeps exRows) exManager
        (storageManager.createDeleteSectorBatchUpdate (exDeps exRows) [9])).err = none
    ∧ (deleteSectorBatchUpdate.prepareNormal (exDeps exRows) exManager
        (storageManager.createDeleteSectorBatchUpdate (exDeps exRows) [9])).update.sectors
      = [{ id := 9, folderID := 0, index := 3, count := 0 }]
    ∧ (deleteSectorBatchUpdate.prepareNormal (exDeps exRows) exManager
        (storageManager.createDeleteSectorBatchUpdate (exDeps exRows) [9])).update.folders
      = [(0, 0)]
    ∧ (exManager.mem 0).usage = [true, false, false, true]
    ∧ ((deleteSectorBatchUpdate.prepareNormal (exDeps exRows) exManager
        (storageManager.createDeleteSectorBatchUpdate (exDeps exRows) [9])).manager.mem 0).usage
      = [true, false, false, true] :=
  ⟨rfl, by decide⟩

/-- C8: with the engine running, `DeleteSectorBatch` on the one root 5, which
has no sector row, returns nil. -/
theorem DeleteSectorBatch_missing_root_returns_nil :
    exManager.tm.stopped = false
    ∧ (exDeps exRows).getSector ((exDeps exRows).calculateSectorID 5)
      = Except.error (Err.msg "sector not found")
    ∧ (storageManager.DeleteSectorBatch exManager [5]).1 = none :=
  ⟨by decide, rfl, by decide⟩

/-- C9: when `tm.Add` returns an error, `DeleteSectorBatch` returns `errStopped`
for every list of roots and `DeleteSector` for every root, and the manager,
lock history included, is the one before the call. -/
theorem DeleteSectorBatch_stopped (sm : storageManager) (hstop : sm.tm.Add.1 ≠ none) :
    (∀ roots, storageManager.DeleteSectorBatch sm roots = (some Err.errStopped, sm))
    ∧ (∀ root, storageManager.DeleteSector sm root = (some Err.errStopped, sm)) := by
  have h : ∀ roots, storageManager.DeleteSectorBatch sm roots = (some Err.errStopped, sm) := by
    intro roots
    unfold storageManager.DeleteSectorBatch
    split
    · rfl
    · rename_i heq
      rw [heq] at hstop
      exact absurd rfl hstop
  exact ⟨h, fun root => h [root]⟩

/-- The hypothesis of `DeleteSectorBatch_stopped` holds for the example manager
while it is shutting down. -/
theorem DeleteSectorBatch_stopped_witness :
    exManagerStopped.tm.Add.1 ≠ none
    ∧ (∀ roots, storageManager.DeleteSectorBatch exManagerStopped roots
        = (some Err.errStopped, exManagerStopped))
    ∧ (∀ root, storageManager.DeleteSector exManagerStopped root
        = (some Err.errStopped, exManagerStopped)) :=
  ⟨by decide, DeleteSectorBatch_stopped exManagerStopped (by decide)⟩

/-! ### release of the shrink update -/

theorem releaseBody_manager {σ : Type} (ext : External σ) (manager : storageManager)
    (update : shrinkFolderUpdate) (upErr : Option updateError) (w : σ) :
    (releaseBody ext manager update upErr w).manager = manager := by
  simp only [releaseBody, releaseTxn]
  repeat' split
  all_goals rfl

theorem release_status {σ : Type} (ext : External σ) (manager : storageManager)
    (update : shrinkFolderUpdate) (upErr : Option updateError) (w : σ) (tf : Ptr)
    (htf : update.targetFolder = some tf) :
    ((shrinkFolderUpdate.release ext manager update upErr w).manager.mem tf).status
      = FolderStatus.folderAvailable := by
  simp only [shrinkFolderUpdate.release, htf, releaseBody_manager]
  simp [storageManager.store]

/-- C11: for every outcome handed to `release` (nil, an outcome without error,
a prepare error, a process error, a stopped error), every world and every
behaviour of the log, the target folder is `folderAvailable` after `release`. -/
theorem release_marks_available {σ : Type} (ext : External σ) (manager : storageManager)
    (update : shrinkFolderUpdate) (upErr : Option updateError) (w : σ) (tf : Ptr)
    (htf : update.targetFolder = some tf) :
    ((shrinkFolderUpdate.release ext manager update upErr w).manager.mem tf).status
      = FolderStatus.folderAvailable :=
  release_status ext manager update upErr w tf htf

/-- The hypothesis of `release_marks_available` holds for the prepared shrink of
`/data/f0`, whose target folder is unavailable before `release`. -/
theorem release_marks_available_witness :
    exPrepared.update.targetFolder = some 0
    ∧ (exPrepared.manager.mem 0).status = FolderStatus.folderUnavailable
    ∧ ((shrinkFolderUpdate.release diskExternal exPrepared.manager exPrepared.update none
        exDisk).manager.mem 0).status = FolderStatus.folderAvailable :=
  ⟨by decide, by decide,
    release_marks_available diskExternal exPrepared.manager exPrepared.update none exDisk 0
      (by decide)⟩

/-- C12 as stated fails: `release` with the outcome of a `process` that failed
on a short read after the commit (no stopped error) leaves the target folder of
the prepared shrink `folderAvailable`, not `folderUnavailable`. -/
theorem release_after_process_failure_available :
    exProcessFailed.processErr = some (Err.msg "not read full sector")
    ∧ exProcessFailed.hasErrStopped = false
    ∧ exPrepared.update.targetFolder = some 0
    ∧ (exPrepared.manager.mem 0).status = FolderStatus.folderUnavailable
    ∧ ((shrinkFolderUpdate.release diskExternal exPrepared.manager exPrepared.update
        (some exProcessFailed) exDisk).manager.mem 0).status = FolderStatus.folderAvailable
    ∧ ((shrinkFolderUpdate.release diskExternal exPrepared.manager exPrepared.update
        (some exProcessFailed) exDisk).manager.mem 0).status
      ≠ FolderStatus.folderUnavailable := by
  decide

/-- C12, amended: when `release` is called with a process error that is not a
stopped error, the target folder is `folderAvailable` after it; the log
transaction is not released and the outcome is left as it was. -/
theorem release_process_error_available {σ : Type} (ext : External σ)
    (manager : storageManager) (update : shrinkFolderUpdate) (u : updateError) (w : σ)
    (tf : Ptr) (e : Err) (htf : update.targetFolder = some tf)
    (hproc : u.processErr = some e) (hstop : u.hasErrStopped = false) :
    ((shrinkFolderUpdate.release ext manager update (some u) w).manager.mem tf).status
      = FolderStatus.folderAvailable
    ∧ (shrinkFolderUpdate.release ext manager update (some u) w).trace = []
    ∧ (shrinkFolderUpdate.release ext manager update (some u) w).upErr = some u := by
  refine ⟨release_status ext manager update (some u) w tf htf, ?_, ?_⟩
  · simp [shrinkFolderUpdate.release, htf, releaseBody, updateError.isNil, hproc, hstop]
  · simp [shrinkFolderUpdate.release, htf, releaseBody, updateError.isNil, hproc, hstop]

/-- The hypotheses of `release_process_error_available` hold for the prepared
shrink and the outcome of a failed `process`. -/
theorem release_process_error_available_witness :
    exPrepared.update.targetFolder = some 0
    ∧ exProcessFailed.processErr = some (Err.msg "not read full sector")
    ∧ exProcessFailed.hasErrStopped = false
    ∧ ((shrinkFolderUpdate.release diskExternal exPrepared.manager exPrepared.update
        (some exProcessFailed) exDisk).manager.mem 0).status = FolderStatus.folderAvailable
    ∧ (shrinkFolderUpdate.release diskExternal exPrepared.manager exPrepared.update
        (some exProcessFailed) exDisk).trace = []
    ∧ (shrinkFolderUpdate.release diskExternal exPrepared.manager exPrepared.update
        (some exProcessFailed) exDisk).upErr = some exProcessFailed :=
  ⟨by decide, by decide, by decide,
    release_process_error_available diskExternal exPrepared.manager exPrepared.update
      exProcessFailed exDisk 0 (Err.msg "not read full sector") (by decide) (by decide)
      (by decide)⟩

/-- C13: with a log transaction in the update, `release` calls `txn.Release`,
once and as its only call, when the outcome is nil or `isNil`, and makes no call
and leaves the world as it is otherwise; in particular for every outcome with a
prepare or a process error, and for every outcome with a stopped error. -/
theorem release_txn_iff_no_error {σ : Type} (ext : External σ) (manager : storageManager)
    (update : shrinkFolderUpdate) (upErr : Option updateError) (w : σ) (txn : Transaction)
    (htxn : update.txn = some txn) :
    ((upErr = none ∨ ∃ u, upErr = some u ∧ u.isNil = true) →
      (shrinkFolderUpdate.release ext manager update upErr w).trace
        = [Effect.release (ext.release txn w).err]
      ∧ (shrinkFolderUpdate.release ext manager update upErr w).world = (ext.release txn w).world)
    ∧ (¬ (upErr = none ∨ ∃ u, upErr = some u ∧ u.isNil = true) →
      (shrinkFolderUpdate.release ext manager update upErr w).trace = []
      ∧ (shrinkFolderUpdate.release ext manager update upErr w).world = w)
    ∧ (∀ u, upErr = some u → (u.prepareErr ≠ none ∨ u.processErr ≠ none) →
      (shrinkFolderUpdate.release ext manager update upErr w).trace = [])
    ∧ (∀ u, upErr = some u → u.hasErrStopped = true →
      (shrinkFolderUpdate.release ext manager update upErr w).trace = []) := by
  have hrel : ∀ v, (shrinkFolderUpdate.release ext manager update v w).trace
        = (releaseBody ext manager update v w).trace
      ∧ (shrinkFolderUpdate.release ext manager update v w).world
        = (releaseBody ext manager update v w).world := by
    intro v
    simp only [shrinkFolderUpdate.release]
    split <;> exact ⟨rfl, rfl⟩
  have hnil : ∀ u : updateError, u.isNil = false →
      (releaseBody ext manager update (some u) w).trace = []
      ∧ (releaseBody ext manager update (some u) w).world = w := by
    intro u hu
    simp only [releaseBody, hu, Bool.false_eq_true, if_false]
    split <;> exact ⟨rfl, rfl⟩
  have herr : ∀ u : updateError, (u.prepareErr ≠ none ∨ u.processErr ≠ none) →
      u.isNil = false := by
    intro u hu
    cases hp : u.prepareErr <;> cases hq : u.processErr <;>
      simp [updateError.isNil, hp, hq] at hu ⊢
  refine ⟨?_, ?_, ?_, ?_⟩
  · intro h
    rw [(hrel upErr).1, (hrel upErr).2]
    rcases h with h | ⟨u, h, hu⟩
    · subst h
      simp [releaseBody, releaseTxn, htxn]
    · subst h
      simp [releaseBody, releaseTxn, htxn, hu]
  · intro h
    rw [(hrel upErr).1, (hrel upErr).2]
    cases upErr with
    | none => exact absurd (Or.inl rfl) h
    | some u =>
      apply hnil u
      cases hu : u.isNil with
      | false => rfl
      | true => exact absurd (Or.inr ⟨u, rfl, hu⟩) h
  · intro u hu he
    subst hu
    rw [(hrel (some u)).1]
    exact (hnil u (herr u he)).1
  · intro u hu hs
    subst hu
    rw [(hrel (some u)).1]
    apply (hnil u (herr u ?_)).1
    simp only [updateError.hasErrStopped, Bool.or_eq_true, decide_eq_true_eq] at hs
    rcases hs with hs | hs
    · exact Or.inl (by rw [hs]; simp)
    · exact Or.inr (by rw [hs]; simp)

/-- The hypothesis of `release_txn_iff_no_error` holds for the prepared shrink of
`/data/f0`, which carries its log transaction. -/
theorem release_txn_iff_no_error_witness :
    exPrepared.update.txn.isSome = true
    ∧ (shrinkFolderUpdate.release diskExternal exPrepared.manager exPrepared.update none
        exDisk).trace = [Effect.release none]
    ∧ (shrinkFolderUpdate.release diskExternal exPrepared.manager exPrepared.update
        (some exProcessFailed) exDisk).trace = [] :=
  ⟨by decide, by decide,
    (release_txn_iff_no_error diskExternal exPrepared.manager exPrepared.update
      (some exProcessFailed) exDisk
      { Operations := [{ Name := opNameShrinkFolder, Data := [4, 2] },
                       { Name := opNameRelocateSector, Data := [9, 3, 1] }], InitErr := none }
      (by decide)).2.2.1 exProcessFailed rfl (Or.inr (by decide))⟩

/-- C14: `prepare` with target normal fails on the encoding of the relocation,
the `return err` that follows it, after it has cut folder 0 to two slots and
moved sector 9 from slot 3 to slot 1 in the bitmap; `release` with that prepare
error leaves `numSectors` at 2, not the previous 4, and the bitmap at
`[used, used, free, free]`, not the `[used, free, free, used]` it was before
`prepare`. -/
theorem release_after_failed_prepare_keeps_changes :
    exFailedPrepare.err = some (Err.msg "rlp: cannot encode")
    ∧ exIntentUpdate.prevNumSectors = 4
    ∧ (exManager.mem 0).numSectors = 4
    ∧ (exManager.mem 0).usage = [true, false, false, true]
    ∧ ((shrinkFolderUpdate.release diskExternal exFailedPrepare.manager exFailedPrepare.update
        (some { prepareErr := exFailedPrepare.err, processErr := none }) exDisk).manager.mem
          0).numSectors = 2
    ∧ ((shrinkFolderUpdate.release diskExternal exFailedPrepare.manager exFailedPrepare.update
        (some { prepareErr := exFailedPrepare.err, processErr := none }) exDisk).manager.mem
          0).usage = [true, true, false, false] := by
  decide

/-! ### recordIntent failing, and the relocation records -/

/-- C15: when `recordIntent` returns an error, the manager's folders, thread
manager and sector locks are those before the call, the manager lock has been
locked and unlocked again, so that its counters are those before the call, and
when `validateShrink` or the folder lookup is what failed the update's log
transaction is the one it had before the call: none has been created. -/
theorem recordIntent_error_restores (deps : Deps) (manager : storageManager)
    (update : shrinkFolderUpdate)
    (herr : (shrinkFolderUpdate.recordIntent deps manager update).err ≠ none) :
    (shrinkFolderUpdate.recordIntent deps manager update).manager.mem = manager.mem
    ∧ (shrinkFolderUpdate.recordIntent deps manager update).manager.tm = manager.tm
    ∧ (shrinkFolderUpdate.recordIntent deps manager update).manager.sectorLocks
      = manager.sectorLocks
    ∧ (shrinkFolderUpdate.recordIntent deps manager update).manager.lock.held
      = manager.lock.held
    ∧ (shrinkFolderUpdate.recordIntent deps manager update).manager.lock.readers
      = manager.lock.readers
    ∧ (shrinkFolderUpdate.recordIntent deps manager update).manager.lock.history
      = manager.lock.history ++ [LockEvent.lock, LockEvent.unlock]
    ∧ ((deps.validateShrink manager.mem update.folderPath update.targetNumSectors ≠ none
        ∨ ∃ e, deps.getWithoutLock manager.mem update.folderPath = Except.error e) →
      (shrinkFolderUpdate.recordIntent deps manager update).update.txn = update.txn) := by
  have hlock : (manager.lock.Lock.Unlock).held = manager.lock.held
      ∧ (manager.lock.Lock.Unlock).readers = manager.lock.readers
      ∧ (manager.lock.Lock.Unlock).history
        = manager.lock.history ++ [LockEvent.lock, LockEvent.unlock] := by
    simp [rwLock.Lock, rwLock.Unlock]
  revert herr
  simp only [shrinkFolderUpdate.recordIntent]
  cases hv : deps.validateShrink manager.mem update.folderPath update.targetNumSectors with
  | some e =>
    intro _
    exact ⟨rfl, rfl, rfl, hlock.1, hlock.2.1, hlock.2.2, fun _ => rfl⟩
  | none =>
    cases hg : deps.getWithoutLock manager.mem update.folderPath with
    | error e =>
      intro _
      exact ⟨rfl, rfl, rfl, hlock.1, hlock.2.1, hlock.2.2, fun _ => rfl⟩
    | ok tf =>
      have hno : ¬ ((none : Option Err) ≠ none
          ∨ ∃ e, (Except.ok tf : Except Err Ptr) = Except.error e) := by
        intro h
        rcases h with h | ⟨e, h⟩
        · exact h rfl
        · cases h
      simp only []
      split
      · intro _
        exact ⟨rfl, rfl, rfl, hlock.1, hlock.2.1, hlock.2.2, fun h => absurd h hno⟩
      · split
        · intro _
          exact ⟨rfl, rfl, rfl, hlock.1, hlock.2.1, hlock.2.2, fun h => absurd h hno⟩
        · intro h
          exact absurd rfl h

/-- The hypothesis of `recordIntent_error_restores` holds for an update whose path
no folder has: the folder lookup of `validateShrink` fails. -/
theorem recordIntent_error_restores_witness :
    (shrinkFolderUpdate.recordIntent (exDeps exRows) exManager exUnknownFolderUpdate).err
      = some (Err.msg "folder not found")
    ∧ (shrinkFolderUpdate.recordIntent (exDeps exRows) exManager
        exUnknownFolderUpdate).manager.lock.held = exManager.lock.held
    ∧ (shrinkFolderUpdate.recordIntent (exDeps exRows) exManager
        exUnknownFolderUpdate).manager.mem = exManager.mem :=
  ⟨by decide,
    (recordIntent_error_restores (exDeps exRows) exManager exUnknownFolderUpdate
      (by decide)).2.2.2.1,
    (recordIntent_error_restores (exDeps exRows) exManager exUnknownFolderUpdate
      (by decide)).1⟩

theorem store_usage_id (m : storageManager) (p q : Ptr) (u : List Bool) :
    ((m.store p { m.mem p with usage := u }).mem q).id = (m.mem q).id := by
  unfold storageManager.store
  by_cases hq : q = p
  · simp [hq]
  · simp [hq]

theorem stageRelocation_through (deps : Deps) (tf rf : Ptr) (s : sector) (index : Nat)
    (once : Bool) (manager : storageManager) (update : shrinkFolderUpdate)
    (hret : (stageRelocation deps tf rf s index once manager update).ret = none) :
    ∃ b2 b3,
      deps.saveSectorToBatch (deps.deleteFolderSectorToBatch update.batch s.folderID s.id)
          (newSectorRow (mkRelocation s (manager.mem rf).id index)) true = (b2, none)
      ∧ deps.saveStorageFolderToBatch b2 (manager.mem tf) = (b3, none)
      ∧ (rf = tf → (stageRelocation deps tf rf s index once manager update).update.batch = b3)
      ∧ (rf ≠ tf → deps.saveStorageFolderToBatch b3 (manager.mem rf)
          = ((stageRelocation deps tf rf s index once manager update).update.batch, none)) := by
  revert hret
  simp only [stageRelocation]
  cases htxn : update.txn with
  | none => intro h; cases h
  | some txn =>
    simp only []
    by_cases hinit : once = false ∧ txn.InitErr ≠ none
    · rw [if_pos hinit]
      intro h
      cases h
    · rw [if_neg hinit]
      cases henc : deps.encodeRelocation (mkRelocation s (manager.mem rf).id index) with
      | error e => intro h; cases h
      | ok b =>
        simp only []
        cases happ : (deps.txnAppend txn
            [{ Name := opNameRelocateSector, Data := b }]).1 with
        | some e => intro h; cases h
        | none =>
          simp only []
          cases hrow : (deps.saveSectorToBatch
              (deps.deleteFolderSectorToBatch update.batch s.folderID s.id)
              { id := s.id, folderID := (manager.mem rf).id, index := index, count := s.count }
              true).2 with
          | some e => intro h; cases h
          | none =>
            simp only []
            cases hfold : (deps.saveStorageFolderToBatch
                (deps.saveSectorToBatch
                  (deps.deleteFolderSectorToBatch update.batch s.folderID s.id)
                  { id := s.id, folderID := (manager.mem rf).id, index := index,
                    count := s.count } true).1 (manager.mem tf)).2 with
            | some e => intro h; cases h
            | none =>
              simp only []
              by_cases hrt : rf = tf
              · rw [if_neg (fun h => h hrt)]
                intro _
                exact ⟨_, _, Prod.ext rfl hrow, Prod.ext rfl hfold, fun _ => rfl,
                  fun h => absurd hrt h⟩
              · rw [if_pos hrt]
                cases hfold2 : (deps.saveStorageFolderToBatch
                    (deps.saveStorageFolderToBatch
                      (deps.saveSectorToBatch
                        (deps.deleteFolderSectorToBatch update.batch s.folderID s.id)
                        { id := s.id, folderID := (manager.mem rf).id, index := index,
                          count := s.count } true).1 (manager.mem tf)).1 (manager.mem rf)).2 with
                | some e => intro h; cases h
                | none =>
                  intro _
                  exact ⟨_, _, Prod.ext rfl hrow, Prod.ext rfl hfold,
                    fun h => absurd h hrt, fun _ => Prod.ext rfl hfold2⟩

theorem stageRelocation_rows (deps : Deps) (tf rf : Ptr) (s : sector) (index : Nat)
    (once : Bool) (manager : storageManager) (update : shrinkFolderUpdate)
    (hb : deps.batchAppends) :
    (sectorRows (stageRelocation deps tf rf s index once manager update).update.batch
        = sectorRows update.batch
      ∧ (stageRelocation deps tf rf s index once manager update).ret ≠ none)
    ∨ sectorRows (stageRelocation deps tf rf s index once manager update).update.batch
        = sectorRows update.batch
          ++ [(newSectorRow (mkRelocation s (manager.mem rf).id index), true)] := by
  obtain ⟨h1, h2, h3⟩ := hb
  simp only [stageRelocation]
  repeat' split
  all_goals first
    | exact Or.inl ⟨rfl, fun h => (by cases h)⟩
    | (right
       simp [h1, h2, h3, sectorRows, newSectorRow, mkRelocation])

theorem update_folders_fields (update : shrinkFolderUpdate) (c : Prop) [Decidable c]
    (f : FolderMap) :
    (if c then { update with folders := f } else update).relocates = update.relocates
    ∧ (if c then { update with folders := f } else update).batch = update.batch := by
  split <;> exact ⟨rfl, rfl⟩

/-- Every run of the loop body for a sector that has to move either leaves the
relocations as they are, or has picked a destination, reserved the slot there
and appended the relocation to that destination. -/
theorem relocateOne_record (deps : Deps) (tf : Ptr) (s : sector) (once : Bool)
    (manager : storageManager) (update : shrinkFolderUpdate) :
    ((relocateOne deps tf s once manager update).update.relocates = update.relocates
      ∧ (relocateOne deps tf s once manager update).update.batch = update.batch
      ∧ (relocateOne deps tf s once manager update).ret ≠ none)
    ∨ ∃ rf index usage1 usage2,
      chooseDestination deps manager tf = Except.ok (rf, index)
      ∧ deps.setFreeSectorSlot (manager.mem tf) s.index = Except.ok usage1
      ∧ deps.setUsedSectorSlot
          ((manager.store tf { manager.mem tf with usage := usage1 }).mem rf) index
        = Except.ok usage2
      ∧ (relocateOne deps tf s once manager update).update.relocates
        = update.relocates ++ [mkRelocation s (manager.mem rf).id index]
      ∧ (deps.batchAppends →
          (sectorRows (relocateOne deps tf s once manager update).update.batch
              = sectorRows update.batch
            ∧ (relocateOne deps tf s once manager update).ret ≠ none)
          ∨ sectorRows (relocateOne deps tf s once manager update).update.batch
              = sectorRows update.batch
                ++ [(newSectorRow (mkRelocation s (manager.mem rf).id index), true)])
      ∧ ((relocateOne deps tf s once manager update).ret = none →
          ∃ b2 b3,
            deps.saveSectorToBatch (deps.deleteFolderSectorToBatch update.batch s.folderID s.id)
                (newSectorRow (mkRelocation s (manager.mem rf).id index)) true = (b2, none)
            ∧ deps.saveStorageFolderToBatch b2
                ((relocateOne deps tf s once manager update).manager.mem tf) = (b3, none)
            ∧ (rf = tf → (relocateOne deps tf s once manager update).update.batch = b3)
            ∧ (rf ≠ tf → deps.saveStorageFolderToBatch b3
                ((relocateOne deps tf s once manager update).manager.mem rf)
                = ((relocateOne deps tf s once manager update).update.batch, none))) := by
  simp only [relocateOne]
  cases hd : chooseDestination deps manager tf with
  | error res => exact Or.inl ⟨rfl, rfl, fun h => (by cases h)⟩
  | ok d =>
    obtain ⟨rf, index⟩ := d
    simp only []
    cases h1 : deps.setFreeSectorSlot (manager.mem tf) s.index with
    | error e =>
      exact Or.inl ⟨(update_folders_fields update _ _).1, (update_folders_fields update _ _).2,
        fun h => (by cases h)⟩
    | ok usage1 =>
      simp only []
      cases h2 : deps.setUsedSectorSlot
          ((manager.store tf { manager.mem tf with usage := usage1 }).mem rf) index with
      | error e =>
        exact Or.inl ⟨(update_folders_fields update _ _).1,
          (update_folders_fields update _ _).2, fun h => (by cases h)⟩
      | ok usage2 =>
        simp only []
        have hid : (((manager.store tf { manager.mem tf with usage := usage1 }).store rf
            { (manager.store tf { manager.mem tf with usage := usage1 }).mem rf with
              usage := usage2 }).mem rf).id = (manager.mem rf).id := by
          rw [store_usage_id, store_usage_id]
        refine Or.inr ⟨rf, index, usage1, usage2, rfl, rfl, h2, ?_, ?_, ?_⟩
        · rw [stageRelocation_relocates, (update_folders_fields update _ _).1, hid]
        · intro hb
          have := stageRelocation_rows deps tf rf s index once
            ((manager.store tf { manager.mem tf with usage := usage1 }).store rf
              { (manager.store tf { manager.mem tf with usage := usage1 }).mem rf with
                usage := usage2 })
            (if (mapLookup update.folders (manager.mem rf).id).isNone then
              { update with folders := mapInsert update.folders (manager.mem rf).id rf }
             else update) hb
          rw [(update_folders_fields update _ _).2, hid] at this
          exact this
        · intro hret
          have := stageRelocation_through deps tf rf s index once
            ((manager.store tf { manager.mem tf with usage := usage1 }).store rf
              { (manager.store tf { manager.mem tf with usage := usage1 }).mem rf with
                usage := usage2 })
            (if (mapLookup update.folders (manager.mem rf).id).isNone then
              { update with folders := mapInsert update.folders (manager.mem rf).id rf }
             else update) hret
          rw [(update_folders_fields update _ _).2, hid] at this
          rw [stageRelocation_manager]
          exact this

theorem prepareLoop_rows (deps : Deps) (tf : Ptr) (hb : deps.batchAppends)
    (ids : List sectorID) :
    ∀ (once : Bool) (manager : storageManager) (update : shrinkFolderUpdate),
      ∃ added k, (prepareLoop deps tf ids once manager update).update.relocates
          = update.relocates ++ added
        ∧ added.length ≤ k + 1 ∧ k ≤ added.length
        ∧ sectorRows (prepareLoop deps tf ids once manager update).update.batch
          = sectorRows update.batch ++ (added.take k).map fun r => (newSectorRow r, true) := by
  induction ids with
  | nil =>
    intro once manager update
    exact ⟨[], 0, by simp [prepareLoop], by simp, by simp, by simp [prepareLoop]⟩
  | cons id ids ih =>
    intro once manager update
    simp only [prepareLoop]
    cases hs : deps.getSector id with
    | error e => exact ⟨[], 0, by simp, by simp, by simp, by simp⟩
    | ok s =>
      simp only []
      by_cases hlt : s.index < update.targetNumSectors
      · simp only [hlt, if_true]
        exact ih once manager update
      · simp only [hlt, if_false]
        cases hr : (relocateOne deps tf s once manager update).ret with
        | some res =>
          simp only []
          rcases relocateOne_record deps tf s once manager update with
            ⟨h, hbt, _⟩ | ⟨rf, index, _, _, _, _, _, h, hrows, _⟩
          · exact ⟨[], 0, by rw [h]; simp, by simp, by simp, by rw [hbt]; simp⟩
          · rcases hrows hb with ⟨hrw, _⟩ | hrw
            · exact ⟨[mkRelocation s (manager.mem rf).id index], 0, h, by simp, by simp,
                by rw [hrw]; simp⟩
            · exact ⟨[mkRelocation s (manager.mem rf).id index], 1, h, by simp, by simp,
                by rw [hrw]; simp⟩
        | none =>
          simp only []
          rcases relocateOne_record deps tf s once manager update with
            ⟨_, _, hne⟩ | ⟨rf, index, _, _, _, _, _, h, hrows, _⟩
          · exact absurd hr hne
          · rcases hrows hb with ⟨_, hne⟩ | hrw
            · exact absurd hr hne
            · obtain ⟨added, k, h1, h2, h3, h4⟩ := ih true
                (relocateOne deps tf s once manager update).manager
                (relocateOne deps tf s once manager update).update
              refine ⟨mkRelocation s (manager.mem rf).id index :: added, k + 1, ?_, ?_, ?_, ?_⟩
              · rw [h1, h]; simp
              · simp; omega
              · simp; omega
              · rw [h4, hrw]; simp

theorem prepareLoop_rows_of (deps : Deps) (tf : Ptr) (hb : deps.batchAppends)
    (ids : List sectorID) (once : Bool) (manager : storageManager) (update : shrinkFolderUpdate)
    (added : List sectorRelocation)
    (hadd : (prepareLoop deps tf ids once manager update).update.relocates
      = update.relocates ++ added) :
    ∃ k, added.length ≤ k + 1 ∧ k ≤ added.length
      ∧ sectorRows (prepareLoop deps tf ids once manager update).update.batch
        = sectorRows update.batch ++ (added.take k).map fun r => (newSectorRow r, true) := by
  obtain ⟨added2, k, h1, h2, h3, h4⟩ := prepareLoop_rows deps tf hb ids once manager update
  have heq : added2 = added := List.append_cancel_left (h1.symm.trans hadd)
  subst heq
  exact ⟨k, h2, h3, h4⟩

/-- C19: whatever `prepareNormal` returns, the relocations it has added pair
off, in order, with the first of the sectors that had to move, and the
relocation of sector `s` has `ID = s.id`,
`PrevLocation = (s.folderID, s.index, s.count)` and `NewLocation.Count = s.count`;
when staging an entry adds it at the end of the batch, the sector rows of the
batch are those it had followed, in order, by one row for each relocation added
(the last one at most is missing, when the function returned before staging it),
each with the id of its relocation and the folder, index and count of its
`NewLocation`.  And every run of the loop body for a sector `s` either adds no
relocation or adds the one whose `NewLocation` is the id of the folder
`chooseDestination` picked, the index it picked, which `setUsedSectorSlot`
reserved in that folder after `setFreeSectorSlot` freed the old slot, and
`s.count`; when the body runs to its end, the batch
of the update is the one `saveSectorToBatch` returned for the row with the id of
the relocation and the folder, index and count of its `NewLocation`, with the
rows of the folders put after it. -/
theorem prepareNormal_relocation_records (deps : Deps) (manager : storageManager)
    (update : shrinkFolderUpdate) (tf : Ptr) (htf : update.targetFolder = some tf) :
    (∃ moved added,
      moved <+: sectorsToMove deps update.targetNumSectors
        (deps.getAllSectorsIDsFromFolder (manager.mem tf).id)
      ∧ (shrinkFolderUpdate.prepareNormal deps manager update).update.relocates
        = update.relocates ++ added
      ∧ List.Forall₂
          (fun s r => r.ID = s.id
            ∧ r.PrevLocation = { FolderID := s.folderID, Index := s.index, Count := s.count }
            ∧ r.NewLocation.Count = s.count)
          moved added
      ∧ (deps.batchAppends →
          ∃ k, added.length ≤ k + 1 ∧ k ≤ added.length
            ∧ sectorRows (shrinkFolderUpdate.prepareNormal deps manager update).update.batch
              = sectorRows update.batch
                ++ (added.take k).map fun r =>
                    (({ id := r.ID, folderID := r.NewLocation.FolderID,
                        index := r.NewLocation.Index, count := r.NewLocation.Count } : sector),
                      true)))
    ∧ ∀ (tf1 : Ptr) (s : sector) (once : Bool) (m : storageManager) (u : shrinkFolderUpdate),
        (relocateOne deps tf1 s once m u).update.relocates = u.relocates
        ∨ ∃ rf index usage1 usage2 r,
          chooseDestination deps m tf1 = Except.ok (rf, index)
          ∧ deps.setFreeSectorSlot (m.mem tf1) s.index = Except.ok usage1
          ∧ deps.setUsedSectorSlot ((m.store tf1 { m.mem tf1 with usage := usage1 }).mem rf) index
            = Except.ok usage2
          ∧ (relocateOne deps tf1 s once m u).update.relocates = u.relocates ++ [r]
          ∧ r.ID = s.id
          ∧ r.PrevLocation = { FolderID := s.folderID, Index := s.index, Count := s.count }
          ∧ r.NewLocation = { FolderID := (m.mem rf).id, Index := index, Count := s.count }
          ∧ ((relocateOne deps tf1 s once m u).ret = none →
              ∃ b2 b3,
                deps.saveSectorToBatch
                    (deps.deleteFolderSectorToBatch u.batch s.folderID s.id)
                    { id := r.ID, folderID := r.NewLocation.FolderID,
                      index := r.NewLocation.Index, count := r.NewLocation.Count } true
                  = (b2, none)
                ∧ deps.saveStorageFolderToBatch b2
                    ((relocateOne deps tf1 s once m u).manager.mem tf1) = (b3, none)
                ∧ (rf = tf1 → (relocateOne deps tf1 s once m u).update.batch = b3)
                ∧ (rf ≠ tf1 → deps.saveStorageFolderToBatch b3
                    ((relocateOne deps tf1 s once m u).manager.mem rf)
                    = ((relocateOne deps tf1 s once m u).update.batch, none))) := by
  constructor
  · have hid : ∀ (v : Nat), (((manager.store tf
        { manager.mem tf with status := FolderStatus.folderUnavailable }).store tf
        { (manager.store tf
            { manager.mem tf with status := FolderStatus.folderUnavailable }).mem tf with
          numSectors := v }).mem tf).id = (manager.mem tf).id := by
      intro v
      simp [store_mem]
    unfold shrinkFolderUpdate.prepareNormal
    simp only [htf]
    refine (prepareLoop_records deps tf _ false _ _).elim fun moved hm =>
      hm.elim fun added h => ⟨moved, added, ?_, h.2.1, ?_, ?_⟩
    · have h0 := h.1
      rw [hid] at h0
      exact h0
    · refine List.Forall₂.imp ?_ h.2.2
      intro s r hr
      obtain ⟨dst, index, hr⟩ := hr
      subst hr
      exact ⟨rfl, rfl, rfl⟩
    · intro hb
      exact prepareLoop_rows_of deps tf hb _ false _ _ added h.2.1
  · intro tf1 s once m u
    rcases relocateOne_record deps tf1 s once m u with
      ⟨h, _, _⟩ | ⟨rf, index, usage1, usage2, hd, h1, h2, hrel, _, hthr⟩
    · exact Or.inl h
    · exact Or.inr ⟨rf, index, usage1, usage2, mkRelocation s (m.mem rf).id index, hd, h1, h2,
        hrel, rfl, rfl, rfl, hthr⟩

/-- The hypotheses of `prepareNormal_relocation_records` hold for the shrink of
`/data/f0` to two slots with sectors 8 and 9 beyond the boundary: sector 8 goes
to slot 1 of folder 0 and sector 9 to slot 0 of folder 1, and the batch holds
their two new rows. -/
theorem prepareNormal_relocation_records_witness :
    (exDeps exRowsThree).batchAppends
    ∧ exIntentUpdate.targetFolder = some 0
    ∧ (shrinkFolderUpdate.prepareNormal (exDeps exRowsThree) exManagerThree
        exIntentUpdate).update.relocates
      = [{ ID := 8, PrevLocation := { FolderID := 0, Index := 2, Count := 1 }
           NewLocation := { FolderID := 0, Index := 1, Count := 1 } },
         { ID := 9, PrevLocation := { FolderID := 0, Index := 3, Count := 3 }
           NewLocation := { FolderID := 1, Index := 0, Count := 3 } }]
    ∧ (shrinkFolderUpdate.prepareNormal (exDeps exRowsThree) exManagerThree
        exIntentUpdate).update.batch
      = [BatchEntry.deleteFolderSector 0 8,
         BatchEntry.putSector { id := 8, folderID := 0, index := 1, count := 1 } true,
         BatchEntry.putFolder
           { id := 0, path := "/data/f0", status := FolderStatus.folderUnavailable,
             numSectors := 2, usage := [true, true, false, true], dataFile := 0 },
         BatchEntry.deleteFolderSector 0 9,
         BatchEntry.putSector { id := 9, folderID := 1, index := 0, count := 3 } true,
         BatchEntry.putFolder
           { id := 0, path := "/data/f0", status := FolderStatus.folderUnavailable,
             numSectors := 2, usage := [true, true, false, false], dataFile := 0 },
         BatchEntry.putFolder
           { id := 1, path := "/data/f1", status := FolderStatus.folderAvailable,
             numSectors := 2, usage := [true, false], dataFile := 1 }]
    ∧ ∃ moved added,
      moved <+: sectorsToMove (exDeps exRowsThree) exIntentUpdate.targetNumSectors
        ((exDeps exRowsThree).getAllSectorsIDsFromFolder (exManagerThree.mem 0).id)
      ∧ (shrinkFolderUpdate.prepareNormal (exDeps exRowsThree) exManagerThree
          exIntentUpdate).update.relocates = exIntentUpdate.relocates ++ added
      ∧ List.Forall₂
          (fun s r => r.ID = s.id
            ∧ r.PrevLocation = { FolderID := s.folderID, Index := s.index, Count := s.count }
            ∧ r.NewLocation.Count = s.count)
          moved added
      ∧ ∃ k, added.length ≤ k + 1 ∧ k ≤ added.length
        ∧ sectorRows (shrinkFolderUpdate.prepareNormal (exDeps exRowsThree) exManagerThree
            exIntentUpdate).update.batch
          = sectorRows exIntentUpdate.batch
            ++ (added.take k).map fun r =>
                (({ id := r.ID, folderID := r.NewLocation.FolderID,
                    index := r.NewLocation.Index, count := r.NewLocation.Count } : sector),
                  true) :=
  ⟨⟨fun _ _ _ => rfl, fun _ _ _ => rfl, fun _ _ => rfl⟩, rfl, by decide, by decide,
    match (prepareNormal_relocation_records (exDeps exRowsThree) exManagerThree exIntentUpdate 0
      rfl).1 with
    | ⟨moved, added, h0, h1, h2, h3⟩ =>
      ⟨moved, added, h0, h1, h2, h3 ⟨fun _ _ _ => rfl, fun _ _ _ => rfl, fun _ _ => rfl⟩⟩⟩

/-! ### segmentShift of a DxFile -/

theorem createSegmentUpdate_offset (deps : DxDeps) (df : DxFile) (segmentIndex offset : Nat)
    (iu : insertUpdate)
    (hok : (df.createSegmentUpdate deps segmentIndex offset).1 = Except.ok iu) :
    iu.offset = offset := by
  revert hok
  simp only [DxFile.createSegmentUpdate, DxFile.createInsertUpdate]
  repeat' split
  all_goals intro hok
  all_goals (cases hok <;> rfl)

theorem shiftLoop_offsets (deps : DxDeps) (shift size : Nat) (n : Nat) :
    ∀ (p : Nat) (df : DxFile) (us res : List insertUpdate) (df1 : DxFile),
      shiftLoop deps shift size n p df us = (Except.ok res, df1) →
      ∃ added, res = us ++ added ∧ added.length = n
        ∧ ∀ j u, added[j]? = some u → u.offset = (p + j * size + shift) % 2 ^ 64 := by
  induction n with
  | zero =>
    intro p df us res df1 h
    simp only [shiftLoop] at h
    injection h with h1 _
    injection h1 with h1
    exact ⟨[], by simp [h1], rfl, by simp⟩
  | succ n ih =>
    intro p df us res df1 h
    simp only [shiftLoop] at h
    cases hr : deps.readSegment p with
    | error e => simp only [hr] at h; injection h with h1 _; cases h1
    | ok seg =>
      simp only [hr] at h
      cases hc : df.createSegmentUpdate deps seg.index (wrap64 (p + shift)) with
      | mk r df2 =>
        cases r with
        | error e => simp only [hc] at h; injection h with h1 _; cases h1
        | ok iu =>
          simp only [hc] at h
          obtain ⟨added, h1, h2, h3⟩ := ih _ _ _ _ _ h
          have hiu : iu.offset = wrap64 (p + shift) :=
            createSegmentUpdate_offset deps df seg.index _ iu (by rw [hc])
          refine ⟨iu :: added, by rw [h1]; simp, by simp [h2], ?_⟩
          intro j u hj
          cases j with
          | zero =>
            simp only [List.getElem?_cons_zero, Option.some.injEq] at hj
            rw [← hj, hiu]
            simp [wrap64]
          | succ j =>
            simp only [List.getElem?_cons_succ] at hj
            rw [h3 j u hj]
            simp only [wrap64]
            have e1 : (j + 1) * size = j * size + size := Nat.succ_mul j size
            rw [e1]
            omega

theorem shiftOffset_in_range (deps : DxDeps) (df : DxFile) (target : Nat)
    (hS : 0 < df.segmentSize deps)
    (hge : df.metadata.HostTableOffset ≤ df.metadata.SegmentOffset)
    (hroom : df.metadata.SegmentOffset - df.metadata.HostTableOffset < target)
    (hbound : df.metadata.HostTableOffset + target
      + (df.segments.length + 1) * df.segmentSize deps ≤ 2 ^ 64) :
    ∃ shift count diff, df.shiftOffset deps target = Except.ok (shift, count, diff)
      ∧ df.segments.length * df.segmentSize deps ≤ shift
      ∧ ∀ j, j < count → df.metadata.SegmentOffset + j * df.segmentSize deps + shift < 2 ^ 64 := by
  have hexp : (df.segments.length + 1) * df.segmentSize deps
      = df.segments.length * df.segmentSize deps + df.segmentSize deps := Nat.succ_mul _ _
  rw [hexp] at hbound
  have hroomval : df.hostTableRoom
      = df.metadata.SegmentOffset - df.metadata.HostTableOffset := by
    simp only [DxFile.hostTableRoom, wrap64]
    omega
  simp only [DxFile.shiftOffset, hroomval]
  generalize hSdef : df.segmentSize deps = S at *
  generalize hndef : df.segments.length = n at *
  generalize hGdef : df.metadata.SegmentOffset = G at *
  generalize hHdef : df.metadata.HostTableOffset = H at *
  generalize hddef : target - (G - H) = d
  have hGd : G + d = H + target := by omega
  have hnot : ¬ target < G - H := by omega
  have hS0 : ¬ S = 0 := by omega
  rw [if_neg hnot, if_neg hS0]
  have hdiv := Nat.div_add_mod d S
  have hmul : S * (d / S) = d / S * S := Nat.mul_comm _ _
  have hdle : d / S ≤ d := Nat.div_le_self d S
  have hjS : d / S ≤ d / S * S := Nat.le_mul_of_pos_right _ (Nat.pos_of_ne_zero hS0)
  rw [hmul] at hdiv
  generalize hqdef : d / S = q at *
  generalize hrdef : d % S = r at *
  -- the number of segments the host table needs, and its size in bytes
  obtain ⟨k, hk, hkS⟩ : ∃ k, (if r ≠ 0 then wrap64 (q + 1) else q) = k
      ∧ k * S < d + S := by
    by_cases hmod : r ≠ 0
    · refine ⟨q + 1, ?_, ?_⟩
      · rw [if_pos hmod]
        simp only [wrap64]
        omega
      · have e1 : (q + 1) * S = q * S + S := Nat.succ_mul _ _
        omega
    · refine ⟨q, ?_, ?_⟩
      · rw [if_neg hmod]
      · omega
  rw [hk]
  by_cases hkn : k > n
  · rw [if_pos hkn]
    have hle : n * S ≤ k * S := Nat.mul_le_mul_right S (Nat.le_of_lt hkn)
    have hw : wrap64 (k * S) = k * S := by
      simp only [wrap64]
      omega
    refine ⟨_, _, _, rfl, ?_, ?_⟩
    · rw [hw]; exact hle
    · intro j hj
      rw [hw]
      have h1 : (j + 1) * S ≤ n * S := Nat.mul_le_mul_right S hj
      have e1 : (j + 1) * S = j * S + S := Nat.succ_mul _ _
      omega
  · rw [if_neg hkn]
    have hw : wrap64 (n * S) = n * S := by
      simp only [wrap64]
      omega
    refine ⟨_, _, _, rfl, ?_, ?_⟩
    · rw [hw]
    · intro j hj
      rw [hw]
      have h1 : (j + 1) * S ≤ k * S := Nat.mul_le_mul_right S hj
      have e1 : (j + 1) * S = j * S + S := Nat.succ_mul _ _
      omega

/-- C17 as stated fails: with two segments of `2 ^ 63` bytes the shift size
`len(segments) × sizePerSeg` wraps to 0 in `uint64`; for a host table of 4097
bytes (the room is 4096) `segmentShift` succeeds with one update whose offset
is 4096, the old segment offset itself, below
`SegmentOffset + len(segments) × sizePerSeg`. -/
theorem segmentShift_wraps_to_old_offset :
    0 < exHugeSegments.segmentSize exHugeDeps
    ∧ exHugeSegments.metadata.HostTableOffset ≤ exHugeSegments.metadata.SegmentOffset
    ∧ exHugeSegments.metadata.SegmentOffset - exHugeSegments.metadata.HostTableOffset < 4097
    ∧ (exHugeSegments.segmentShift exHugeDeps 4097).1.toOption
      = some [{ filename := "/files/a.dxfile", offset := 4096, data := [0] }]
    ∧ 4096 < exHugeSegments.metadata.SegmentOffset
        + exHugeSegments.segments.length * exHugeSegments.segmentSize exHugeDeps := by
  decide

/-- C17, amended: with `sizePerSeg > 0`, `SegmentOffset ≥ HostTableOffset`, a
target host-table size larger than the current room, and no `uint64`
wrap-around, that is `HostTableOffset + target + (len(segments) + 1) ×
sizePerSeg ≤ 2 ^ 64`, the updates of a successful `segmentShift` have the
offsets `base`, `base + sizePerSeg`, `base + 2 × sizePerSeg`, ... in order,
for a `base` at or beyond `SegmentOffset + len(segments) × sizePerSeg`, the
end of the segment region. -/
theorem segmentShift_offsets (deps : DxDeps) (df : DxFile) (target : Nat)
    (updates : List insertUpdate)
    (hS : 0 < df.segmentSize deps)
    (hge : df.metadata.HostTableOffset ≤ df.metadata.SegmentOffset)
    (hroom : df.metadata.SegmentOffset - df.metadata.HostTableOffset < target)
    (hbound : df.metadata.HostTableOffset + target
      + (df.segments.length + 1) * df.segmentSize deps ≤ 2 ^ 64)
    (hok : (df.segmentShift deps target).1 = Except.ok updates) :
    ∃ base, df.metadata.SegmentOffset + df.segments.length * df.segmentSize deps ≤ base
      ∧ ∀ i u, updates[i]? = some u → u.offset = base + i * df.segmentSize deps := by
  obtain ⟨shift, count, diff, hso, hbase, hrange⟩ :=
    shiftOffset_in_range deps df target hS hge hroom hbound
  simp only [DxFile.segmentShift, hso] at hok
  cases ho : deps.openFile df.filePath with
  | some e => simp only [ho] at hok; cases hok
  | none =>
    simp only [ho] at hok
    cases hl : shiftLoop deps shift (df.segmentSize deps) count df.metadata.SegmentOffset df
        [] with
    | mk r df1 =>
      cases r with
      | error e => simp only [hl] at hok; cases hok
      | ok us =>
        simp only [hl] at hok
        injection hok with hus
        obtain ⟨added, h1, h2, h3⟩ := shiftLoop_offsets _ _ _ _ _ _ _ _ _ hl
        refine ⟨df.metadata.SegmentOffset + shift, by omega, ?_⟩
        intro i u hi
        rw [← hus, h1, List.nil_append] at hi
        have hlt : i < count := by
          rw [← h2]
          exact (List.getElem?_eq_some_iff.mp hi).1
        rw [h3 i u hi, Nat.mod_eq_of_lt (hrange i hlt)]
        omega

/-- The hypotheses of `segmentShift_offsets` hold for three one-page segments
behind one page of host table and a host table of 10000 bytes: two segments
move to the offsets 20480 and 24576, the region ending at 20480. -/
theorem segmentShift_offsets_witness :
    (exDxFile.segmentShift exDxDeps 10000).1.toOption
      = some [{ filename := "/files/b.dxfile", offset := 20480, data := [0] },
              { filename := "/files/b.dxfile", offset := 24576, data := [1] }]
    ∧ ∃ base, exDxFile.metadata.SegmentOffset
          + exDxFile.segments.length * exDxFile.segmentSize exDxDeps ≤ base
      ∧ ∀ i u,
        ([{ filename := "/files/b.dxfile", offset := 20480, data := [0] },
          { filename := "/files/b.dxfile", offset := 24576, data := [1] }] :
            List insertUpdate)[i]? = some u →
        u.offset = base + i * exDxFile.segmentSize exDxDeps :=
  ⟨by decide,
    segmentShift_offsets exDxDeps exDxFile 10000 _ (by decide) (by decide) (by decide)
      (by decide) rfl⟩

/-! ### Interaction names -/

/-- C18: for each of the five valid interaction types the type of its name is
the type itself, and for each of their five names the name of its type is the
name itself. -/
theorem interaction_name_roundtrip :
    (∀ it ∈ validInteractionTypes, InteractionNameToType (InteractionTypeToName it) = it)
    ∧ (∀ name ∈ validInteractionNames,
        InteractionTypeToName (InteractionNameToType name) = name)
    ∧ validInteractionTypes.map InteractionTypeToName = validInteractionNames := by
  decide

/-! ### The upload worker -/

theorem killUploading_worker (deps : WorkerDeps) (w : worker) (c : clientState) :
    (worker.killUploading deps w c).1
      = { w with uploadTerminated := true, pendingSegments := [] } := by
  simp [worker.killUploading, worker.dropUploadSegments]

theorem append_terminated (deps : WorkerDeps) (contract : Option Bool) (onCoolDown : Bool)
    (w : worker) (c : clientState) (uc : Nat) (hterm : w.uploadTerminated = true) :
    worker.AppendUploadSegment deps contract onCoolDown w c uc
      = (w, worker.dropSegment deps c uc) := by
  simp [worker.AppendUploadSegment, hterm]

theorem appendCalls_terminated (deps : WorkerDeps) (calls : List (Option Bool × Bool × Nat)) :
    ∀ (w : worker) (c : clientState), w.uploadTerminated = true →
      (appendCalls deps calls w c).1 = w := by
  induction calls with
  | nil => intro w c _; rfl
  | cons call rest ih =>
    intro w c hterm
    obtain ⟨contract, onCoolDown, uc⟩ := call
    simp only [appendCalls, append_terminated deps contract onCoolDown w c uc hterm]
    exact ih w _ hterm

/-- C16: after `killUploading` the worker has `uploadTerminated` true and no
pending segment; every `AppendUploadSegment` on that worker, whatever the
contract's upload ability, the cool-down state and the client state, leaves the
worker as it is and drops the segment, which is handed to
`cleanupUploadSegment` with `workersRemain` one lower; and after any run of
such calls the worker is still the same, its pending segments empty. -/
theorem killUploading_rejects_later_segments (deps : WorkerDeps) (w : worker)
    (c : clientState) :
    (worker.killUploading deps w c).1.uploadTerminated = true
    ∧ (worker.killUploading deps w c).1.pendingSegments = []
    ∧ (∀ (contract : Option Bool) (onCoolDown : Bool) (c1 : clientState) (uc : Nat),
        (worker.AppendUploadSegment deps contract onCoolDown
          (worker.killUploading deps w c).1 c1 uc).1 = (worker.killUploading deps w c).1
        ∧ (worker.AppendUploadSegment deps contract onCoolDown
          (worker.killUploading deps w c).1 c1 uc).2.segments
          = deps.cleanupUploadSegment
              (setSegment c1.segments uc
                { c1.segments uc with workersRemain := (c1.segments uc).workersRemain - 1 })
              uc)
    ∧ (∀ (calls : List (Option Bool × Bool × Nat)) (c1 : clientState),
        (appendCalls deps calls (worker.killUploading deps w c).1 c1).1.pendingSegments = []
        ∧ (appendCalls deps calls (worker.killUploading deps w c).1 c1).1.uploadTerminated
          = true) := by
  have hterm : (worker.killUploading deps w c).1.uploadTerminated = true := by
    rw [killUploading_worker]
  have hpend : (worker.killUploading deps w c).1.pendingSegments = [] := by
    rw [killUploading_worker]
  refine ⟨hterm, hpend, ?_, ?_⟩
  · intro contract onCoolDown c1 uc
    rw [append_terminated deps contract onCoolDown _ c1 uc hterm]
    exact ⟨rfl, rfl⟩
  · intro calls c1
    rw [appendCalls_terminated deps calls _ c1 hterm]
    exact ⟨hpend, hterm⟩

theorem firstUnusedFrom_least (l : List Bool) :
    ∀ (k i : Nat), l[i]? = some false → (∀ j, j < i → l[j]? = some true) →
      firstUnusedFrom l k = some (k + i) := by
  induction l with
  | nil => intro k i h _; simp at h
  | cons b rest ih =>
    intro k i h hlt
    cases i with
    | zero =>
      simp only [List.getElem?_cons_zero, Option.some.injEq] at h
      simp [firstUnusedFrom, h]
    | succ i =>
      have hb : b = true := by
        have := hlt 0 (Nat.succ_pos i)
        simpa using this
      simp only [List.getElem?_cons_succ] at h
      have hrest : ∀ j, j < i → rest[j]? = some true := by
        intro j hj
        have := hlt (j + 1) (Nat.succ_lt_succ hj)
        simpa using this
      simp only [firstUnusedFrom, hb]
      rw [ih (k + 1) i h hrest]
      simp
      omega

theorem firstUnusedFrom_all_used (l : List Bool) :
    ∀ (k : Nat), (∀ b ∈ l, b = true) → firstUnusedFrom l k = none := by
  induction l with
  | nil => intro k _; rfl
  | cons b rest ih =>
    intro k h
    have hb : b = true := h b (List.mem_cons_self _ _)
    simp only [firstUnusedFrom, hb]
    exact ih (k + 1) fun x hx => h x (List.mem_cons_of_mem _ hx)

/-- C20: on the upload path of `preProcessUploadSegment` (the segment is not
complete, the worker's host is among the unused hosts, the contract has upload
ability, the worker is not on cool down, and more sectors are needed than are
completed or uploading): for the smallest index `i` whose slot is false the
call returns the segment with `i`, and the segment then has exactly slot `i`
set to true, `sectorsUploadingNum` one higher and the worker's host removed from
the unused hosts, every other segment being as before; and when every slot is
true the call returns nil and the segment is dropped with its slots as they
were. -/
theorem preProcessUploadSegment_upload_path (deps : WorkerDeps) (w : worker)
    (c : clientState) (uc : Nat)
    (hcomplete : ¬ (c.segments uc).sectorsAllNeedNum ≤ (c.segments uc).sectorsCompletedNum)
    (hhost : w.hostID ∈ (c.segments uc).unusedHosts)
    (hneed : (c.segments uc).sectorsAllNeedNum
      > (c.segments uc).sectorsCompletedNum + (c.segments uc).sectorsUploadingNum) :
    (∀ i, (c.segments uc).sectorSlotsStatus[i]? = some false →
        (∀ j, j < i → (c.segments uc).sectorSlotsStatus[j]? = some true) →
        (worker.preProcessUploadSegment deps (some true) false w c uc).1 = (some uc, i)
        ∧ ((worker.preProcessUploadSegment deps (some true) false w c uc).2.segments
            uc).sectorSlotsStatus = (c.segments uc).sectorSlotsStatus.set i true
        ∧ ((worker.preProcessUploadSegment deps (some true) false w c uc).2.segments
            uc).sectorsUploadingNum = (c.segments uc).sectorsUploadingNum + 1
        ∧ w.hostID ∉ ((worker.preProcessUploadSegment deps (some true) false w c uc).2.segments
            uc).unusedHosts
        ∧ (∀ h, h ≠ w.hostID →
            (h ∈ ((worker.preProcessUploadSegment deps (some true) false w c uc).2.segments
              uc).unusedHosts ↔ h ∈ (c.segments uc).unusedHosts))
        ∧ ∀ q, q ≠ uc →
            (worker.preProcessUploadSegment deps (some true) false w c uc).2.segments q
              = c.segments q)
    ∧ ((∀ b ∈ (c.segments uc).sectorSlotsStatus, b = true) →
        (worker.preProcessUploadSegment deps (some true) false w c uc).1 = (none, 0)
        ∧ (worker.preProcessUploadSegment deps (some true) false w c uc).2.segments
          = deps.cleanupUploadSegment
              (setSegment c.segments uc
                { c.segments uc with workersRemain := (c.segments uc).workersRemain - 1 })
              uc) := by
  have hpath : ∀ r, firstUnusedFrom (c.segments uc).sectorSlotsStatus 0 = r →
      worker.preProcessUploadSegment deps (some true) false w c uc
        = match r with
          | none => ((none, 0), worker.dropSegment deps c uc)
          | some index =>
            ((some uc, index),
              { c with
                segments := setSegment c.segments uc
                  { c.segments uc with
                    sectorSlotsStatus := (c.segments uc).sectorSlotsStatus.set index true
                    unusedHosts := (c.segments uc).unusedHosts.filter fun h => h ≠ w.hostID
                    sectorsUploadingNum := (c.segments uc).sectorsUploadingNum + 1
                    workersRemain := (c.segments uc).workersRemain - 1 } }) := by
    intro r hr
    simp only [worker.preProcessUploadSegment, hr]
    simp [hcomplete, hhost, hneed]
  constructor
  · intro i hi hlt
    have hfirst := firstUnusedFrom_least _ 0 i hi hlt
    rw [Nat.zero_add] at hfirst
    rw [hpath _ hfirst]
    refine ⟨rfl, ?_, ?_, ?_, ?_, ?_⟩
    · simp [setSegment]
    · simp [setSegment]
    · simp [setSegment]
    · intro h hne
      simp [setSegment, hne]
    · intro q hq
      simp [setSegment, hq]
  · intro hall
    rw [hpath _ (firstUnusedFrom_all_used _ 0 hall)]
    exact ⟨rfl, rfl⟩

/-- The hypotheses of `preProcessUploadSegment_upload_path` hold for the worker
of host `h1` and a segment with slots `[true, false, false]`: the call returns
the segment with index 1 and the slots become `[true, true, false]`. -/
theorem preProcessUploadSegment_upload_path_witness :
    (worker.preProcessUploadSegment exWorkerDeps (some true) false exWorker exClient 5).1
      = (some 5, 1)
    ∧ ((worker.preProcessUploadSegment exWorkerDeps (some true) false exWorker exClient
        5).2.segments 5).sectorSlotsStatus = [true, true, false]
    ∧ ((worker.preProcessUploadSegment exWorkerDeps (some true) false exWorker exClient
        5).2.segments 5).sectorsUploadingNum = 2 :=
  ⟨((preProcessUploadSegment_upload_path exWorkerDeps exWorker exClient 5 (by decide)
      (by decide) (by decide)).1 1 (by decide) (by decide)).1,
    by decide, by decide⟩

/-! ### Room for the host table, and the index guard -/

/-- C21: three one-page segments sit behind a host table with 4096 bytes of room;
for a host table of 10000 bytes `segmentShift` succeeds and moves two segments
(to 20480 and 24576, segment 2 staying at 16384), but `SegmentOffset` goes from
8192 to 12288 only: the room is 8192 bytes, less than the 10000 asked for.  For
40000 bytes, where more segments are needed than there are, the room is
40960. -/
theorem segmentShift_room_below_target :
    0 < exDxFile.segmentSize exDxDeps
    ∧ exDxFile.metadata.SegmentOffset - exDxFile.metadata.HostTableOffset = 4096
    ∧ ((exDxFile.segmentShift exDxDeps 10000).1.toOption.map fun us => us.map fun u => u.offset)
      = some [20480, 24576]
    ∧ (exDxFile.segmentShift exDxDeps 10000).2.segments
      = [{ index := 0, offset := 20480 }, { index := 1, offset := 24576 },
         { index := 2, offset := 16384 }]
    ∧ (exDxFile.segmentShift exDxDeps 10000).2.metadata.SegmentOffset = 12288
    ∧ (exDxFile.segmentShift exDxDeps 10000).2.metadata.HostTableOffset = 4096
    ∧ (exDxFile.segmentShift exDxDeps 10000).2.metadata.SegmentOffset
        - (exDxFile.segmentShift exDxDeps 10000).2.metadata.HostTableOffset < 10000
    ∧ (exDxFile.segmentShift exDxDeps 40000).2.metadata.SegmentOffset
        - (exDxFile.segmentShift exDxDeps 40000).2.metadata.HostTableOffset = 40960 := by
  decide

/-- C22: the DxFile has three segments; `createSegmentUpdate` with segment index
3 passes the guard `segmentIndex > len(df.segments)` and indexes the list out
of range, where index 4 gets the "unexpected index" error; `segmentShift` runs
into the same panic when the segment it reads from the file carries the
index 3. -/
theorem createSegmentUpdate_index_at_length :
    exDxFile.segments.length = 3
    ∧ (exDxFile.createSegmentUpdate exDxDeps 3 0).1 = Except.error Err.indexOutOfRange
    ∧ (exDxFile.createSegmentUpdate exDxDeps 4 0).1
      = Except.error (Err.msg "unexpected index")
    ∧ (exDxFile.segmentShift exStaleDeps 10000).1 = Except.error Err.indexOutOfRange :=
  ⟨rfl, rfl, rfl, rfl⟩

/-! ### The session lock in upload -/

theorem uploadFailed_sessionLock (deps : UploadDeps) (wdeps : WorkerDeps) (st : uploadState)
    (uc sectorIndex : Nat) :
    (worker.uploadFailed deps wdeps st uc sectorIndex).sessionLock = st.sessionLock := by
  simp only [worker.uploadFailed]
  repeat' split
  all_goals rfl

/-- Whatever the state and the segment: when the contract is renewing, `upload`
returns with `sessionLock` locked once more than before. -/
theorem upload_renewing_sessionLock (deps : UploadDeps) (wdeps : WorkerDeps)
    (st : uploadState) (uc sectorIndex : Nat)
    (hrenew : deps.IsRenewing st.worker.contractID = true) :
    (worker.upload deps wdeps st uc sectorIndex).sessionLock = st.sessionLock.Lock := by
  simp only [worker.upload, hrenew, if_true]
  rw [uploadFailed_sessionLock]

/-- C23: from a free `sessionLock`, `upload` returns without a panic and with the
lock still held (locked once, never unlocked) when the contract is renewing, and
also when no session exists and `SetupConnection` fails; it returns with the
lock released only when the upload goes ahead. -/
theorem upload_leaves_sessionLock_held :
    exUploadState.sessionLock.held = 0
    ∧ (worker.upload exUploadDepsRenewing exWorkerDeps exUploadState 5 0).panic = none
    ∧ (worker.upload exUploadDepsRenewing exWorkerDeps exUploadState 5 0).sessionLock
      = { held := 1, readers := 0, history := [LockEvent.lock] }
    ∧ (worker.upload exUploadDepsNoConnection exWorkerDeps exUploadState 5 0).panic = none
    ∧ (worker.upload exUploadDepsNoConnection exWorkerDeps exUploadState 5 0).sessionLock
      = { held := 1, readers := 0, history := [LockEvent.lock] }
    ∧ (worker.upload exUploadDeps exWorkerDeps exUploadState 5 0).sessionLock
      = { held := 0, readers := 0, history := [LockEvent.lock, LockEvent.unlock] } := by
  decide

/-! ### The manager lock over a shrink run -/

/-- C24 as stated fails: on the example manager, whose lock nobody holds,
`lockResource` returns nil with the lock taken once; `recordIntent`, called
next, starts with `Lock()` on that lock and does not return, so the run never
gets to `prepare`, `process` or `release`. -/
theorem recordIntent_after_lockResource_waits :
    exManager.lock.held = 0 ∧ exManager.lock.readers = 0
    ∧ (shrinkFolderUpdate.lockResourceCall exManager exFreshUpdate).isSome = true
    ∧ exRunLocked.err = none
    ∧ exRunLocked.manager.lock.held = 1
    ∧ exRunLocked.manager.lock.history = [LockEvent.lock]
    ∧ exRunLocked.manager.lock.lockOrWait = none
    ∧ (shrinkFolderUpdate.recordIntentCall (exDeps exRows) exRunLocked.manager
        exRunLocked.update).isNone = true := by
  decide

theorem relocateOne_lock (deps : Deps) (tf : Ptr) (s : sector) (once : Bool)
    (manager : storageManager) (update : shrinkFolderUpdate) :
    (relocateOne deps tf s once manager update).manager.lock = manager.lock := by
  simp only [relocateOne]
  repeat' split
  all_goals simp only [stageRelocation_manager, storageManager.store]

theorem prepareLoop_lock (deps : Deps) (tf : Ptr) (ids : List sectorID) :
    ∀ (once : Bool) (manager : storageManager) (update : shrinkFolderUpdate),
      (prepareLoop deps tf ids once manager update).manager.lock = manager.lock := by
  induction ids with
  | nil => intro once manager update; simp [prepareLoop]
  | cons id ids ih =>
    intro once manager update
    simp only [prepareLoop]
    cases hs : deps.getSector id with
    | error e => rfl
    | ok s =>
      simp only []
      by_cases hlt : s.index < update.targetNumSectors
      · simp only [hlt, if_true]
        exact ih _ _ _
      · simp only [hlt, if_false]
        cases hr : (relocateOne deps tf s once manager update).ret with
        | some res => simp only []; exact relocateOne_lock deps tf s once manager update
        | none =>
          simp only []
          rw [ih]
          exact relocateOne_lock deps tf s once manager update

theorem prepare_lock (deps : Deps) (manager : storageManager) (update : shrinkFolderUpdate)
    (target : Nat) :
    (shrinkFolderUpdate.prepare deps manager update target).manager.lock = manager.lock := by
  simp only [shrinkFolderUpdate.prepare, shrinkFolderUpdate.prepareNormal,
    shrinkFolderUpdate.prepareCommitted]
  repeat' split
  all_goals first
    | rfl
    | (rw [prepareLoop_lock]; rfl)

theorem stageRelocation_targetFolder (deps : Deps) (tf rf : Ptr) (s : sector) (index : Nat)
    (once : Bool) (manager : storageManager) (update : shrinkFolderUpdate) :
    (stageRelocation deps tf rf s index once manager update).update.targetFolder
      = update.targetFolder := by
  simp only [stageRelocation]
  repeat' split
  all_goals rfl

theorem relocateOne_targetFolder (deps : Deps) (tf : Ptr) (s : sector) (once : Bool)
    (manager : storageManager) (update : shrinkFolderUpdate) :
    (relocateOne deps tf s once manager update).update.targetFolder = update.targetFolder := by
  simp only [relocateOne]
  repeat' split
  all_goals first
    | rfl
    | rw [stageRelocation_targetFolder]

theorem prepareLoop_targetFolder (deps : Deps) (tf : Ptr) (ids : List sectorID) :
    ∀ (once : Bool) (manager : storageManager) (update : shrinkFolderUpdate),
      (prepareLoop deps tf ids once manager update).update.targetFolder
        = update.targetFolder := by
  induction ids with
  | nil => intro once manager update; simp [prepareLoop]
  | cons id ids ih =>
    intro once manager update
    simp only [prepareLoop]
    cases hs : deps.getSector id with
    | error e => rfl
    | ok s =>
      simp only []
      by_cases hlt : s.index < update.targetNumSectors
      · simp only [hlt, if_true]
        exact ih _ _ _
      · simp only [hlt, if_false]
        cases hr : (relocateOne deps tf s once manager update).ret with
        | some res => simp only []; exact relocateOne_targetFolder deps tf s once manager update
        | none =>
          simp only []
          rw [ih]
          exact relocateOne_targetFolder deps tf s once manager update

theorem prepare_targetFolder (deps : Deps) (manager : storageManager)
    (update : shrinkFolderUpdate) (target : Nat) :
    (shrinkFolderUpdate.prepare deps manager update target).update.targetFolder
      = update.targetFolder := by
  simp only [shrinkFolderUpdate.prepare, shrinkFolderUpdate.prepareNormal,
    shrinkFolderUpdate.prepareCommitted]
  cases htf : update.targetFolder with
  | none =>
    simp only []
    repeat' split
    all_goals rfl
  | some tf =>
    simp only []
    repeat' split
    all_goals first
      | rfl
      | rw [prepareLoop_targetFolder]

theorem recordIntent_ok_lock (deps : Deps) (manager : storageManager)
    (update : shrinkFolderUpdate)
    (hok : (shrinkFolderUpdate.recordIntent deps manager update).err = none) :
    (shrinkFolderUpdate.recordIntent deps manager update).manager.lock = manager.lock.Lock
    ∧ ∃ tf, (shrinkFolderUpdate.recordIntent deps manager update).update.targetFolder
        = some tf := by
  revert hok
  simp only [shrinkFolderUpdate.recordIntent]
  repeat' split
  all_goals intro hok
  all_goals first
    | exact ⟨rfl, _, rfl⟩
    | cases hok

theorem release_lock {σ : Type} (ext : External σ) (manager : storageManager)
    (update : shrinkFolderUpdate) (upErr : Option updateError) (w : σ) (tf : Ptr)
    (htf : update.targetFolder = some tf) :
    (shrinkFolderUpdate.release ext manager update upErr w).manager.lock
      = manager.lock.Unlock := by
  simp only [shrinkFolderUpdate.release, htf, releaseBody_manager]
  rfl

/-- C24, amended: `lockResource` and `recordIntent` each take the manager lock,
which is not reentrant, so that `recordIntent` called after `lockResource` does
not return; a run takes the lock at one of the two.  In a run `recordIntent`,
`prepare`, `process`, `release` that starts with the lock free and in which
`recordIntent` returns nil, `recordIntent` returns with the lock taken once,
`prepare` leaves the lock as it is (`process` does not touch the manager), and
after `release`, whatever the outcome handed to it, the counter is 0 again and
the history has one lock and one unlock more than before.  In a run
`lockResource`, `prepare`, `process`, `release` on an update whose target folder
is set, the same holds with `lockResource` in the place of `recordIntent`. -/
theorem shrink_run_locks_once {σ : Type} (deps : Deps) (ext : External σ)
    (manager : storageManager) (update : shrinkFolderUpdate) (target : Nat)
    (upErr : Option updateError) (w : σ)
    (hfree : manager.lock.held = 0 ∧ manager.lock.readers = 0)
    (hok : (shrinkFolderUpdate.recordIntent deps manager update).err = none) :
    shrinkFolderUpdate.recordIntentCall deps
        (shrinkFolderUpdate.lockResource manager update).manager
        (shrinkFolderUpdate.lockResource manager update).update = none
    ∧ (shrinkFolderUpdate.recordIntentCall deps manager update).isSome = true
    ∧ (shrinkFolderUpdate.recordIntent deps manager update).manager.lock.held = 1
    ∧ (shrinkFolderUpdate.recordIntent deps manager update).manager.lock.history
      = manager.lock.history ++ [LockEvent.lock]
    ∧ (shrinkFolderUpdate.prepare deps
        (shrinkFolderUpdate.recordIntent deps manager update).manager
        (shrinkFolderUpdate.recordIntent deps manager update).update target).manager.lock
      = (shrinkFolderUpdate.recordIntent deps manager update).manager.lock
    ∧ (shrinkFolderUpdate.release ext
        (shrinkFolderUpdate.prepare deps
          (shrinkFolderUpdate.recordIntent deps manager update).manager
          (shrinkFolderUpdate.recordIntent deps manager update).update target).manager
        (shrinkFolderUpdate.prepare deps
          (shrinkFolderUpdate.recordIntent deps manager update).manager
          (shrinkFolderUpdate.recordIntent deps manager update).update target).update
        upErr w).manager.lock
      = { held := 0, readers := 0
          history := manager.lock.history ++ [LockEvent.lock, LockEvent.unlock] }
    ∧ (shrinkFolderUpdate.lockResourceCall manager update).isSome = true
    ∧ (shrinkFolderUpdate.lockResource manager update).manager.lock.held = 1
    ∧ ∀ (u : shrinkFolderUpdate) (tf : Ptr), u.targetFolder = some tf →
        (shrinkFolderUpdate.release ext
          (shrinkFolderUpdate.prepare deps (shrinkFolderUpdate.lockResource manager u).manager
            (shrinkFolderUpdate.lockResource manager u).update target).manager
          (shrinkFolderUpdate.prepare deps (shrinkFolderUpdate.lockResource manager u).manager
            (shrinkFolderUpdate.lockResource manager u).update target).update
          upErr w).manager.lock
        = { held := 0, readers := 0
            history := manager.lock.history ++ [LockEvent.lock, LockEvent.unlock] } := by
  obtain ⟨hheld, hreaders⟩ := hfree
  obtain ⟨hl, tf, htf⟩ := recordIntent_ok_lock deps manager update hok
  have hcycle : manager.lock.Lock.Unlock
      = { held := 0, readers := 0
          history := manager.lock.history ++ [LockEvent.lock, LockEvent.unlock] } := by
    cases hm : manager.lock with
    | mk held readers history =>
      rw [hm] at hheld hreaders
      simp only [rwLock.Lock, rwLock.Unlock] at hheld hreaders ⊢
      subst hheld
      subst hreaders
      simp
  refine ⟨?_, ?_, ?_, ?_, prepare_lock _ _ _ _, ?_, ?_, ?_, ?_⟩
  · simp [shrinkFolderUpdate.recordIntentCall, rwLock.lockOrWait,
      shrinkFolderUpdate.lockResource, rwLock.Lock, hheld]
  · simp [shrinkFolderUpdate.recordIntentCall, rwLock.lockOrWait, hheld, hreaders]
  · rw [hl]
    simp [rwLock.Lock, hheld]
  · rw [hl]
    rfl
  · rw [release_lock ext _ _ upErr w tf (by rw [prepare_targetFolder]; exact htf),
      prepare_lock, hl]
    exact hcycle
  · simp [shrinkFolderUpdate.lockResourceCall, rwLock.lockOrWait, hheld, hreaders]
  · simp [shrinkFolderUpdate.lockResource, rwLock.Lock, hheld]
  · intro u tf1 hu
    rw [release_lock ext _ _ upErr w tf1 (by rw [prepare_targetFolder]; exact hu), prepare_lock]
    exact hcycle

/-- The hypotheses of `shrink_run_locks_once` hold for the shrink of `/data/f0`
to two slots on the example manager, and there every phase from `recordIntent`
on returns nil: the lock is taken by `recordIntent`, still taken once after
`prepare`, and free after `release`, with the history lock, unlock. -/
theorem shrink_run_locks_once_witness :
    (exManager.lock.held = 0 ∧ exManager.lock.readers = 0)
    ∧ exRunIntent.err = none ∧ exRunPrepared.err = none ∧ exRunProcessed.err = none
    ∧ exRunReleased.err = none
    ∧ exRunIntent.manager.lock.held = 1
    ∧ exRunPrepared.manager.lock.held = 1
    ∧ exRunReleased.manager.lock.history = [LockEvent.lock, LockEvent.unlock]
    ∧ (shrinkFolderUpdate.release diskExternal
        (shrinkFolderUpdate.prepare (exDeps exRows)
          (shrinkFolderUpdate.recordIntent (exDeps exRows) exManager exFreshUpdate).manager
          (shrinkFolderUpdate.recordIntent (exDeps exRows) exManager exFreshUpdate).update
          targetNormal).manager
        (shrinkFolderUpdate.prepare (exDeps exRows)
          (shrinkFolderUpdate.recordIntent (exDeps exRows) exManager exFreshUpdate).manager
          (shrinkFolderUpdate.recordIntent (exDeps exRows) exManager exFreshUpdate).update
          targetNormal).update
        none exRunProcessed.world).manager.lock
      = { held := 0, readers := 0
          history := exManager.lock.history ++ [LockEvent.lock, LockEvent.unlock] } :=
  ⟨by decide, by decide, by decide, by decide, by decide, by decide, by decide, by decide,
    (shrink_run_locks_once (exDeps exRows) diskExternal exManager exFreshUpdate targetNormal
      none exRunProcessed.world (by decide) (by decide)).2.2.2.2.2.1⟩

end Godx
